import Mathlib

/-!
Shallow embedding of the ORCA/geometry core of the navigation_3d_rs repository
(crates geometry and orca), over the real numbers as the idealisation of f32
arithmetic.  Definitions mirror the Rust source structure by structure and
branch by branch; theorems settle the specification claims about them.
-/

noncomputable section

open Classical

namespace Nav3

/-- Fixed epsilon used by the library for all degeneracy checks
(crates/orca/src/lib.rs and crates/geometry, both define 0.0001). -/
def EPSILON : ℝ := 1 / 10000

/-- Two dimensional vector (bevy_math Vec2, components idealised as reals). -/
@[ext]
structure Vec2 where
  x : ℝ
  y : ℝ

instance : Zero Vec2 := ⟨⟨0, 0⟩⟩
instance : Add Vec2 := ⟨fun a b => ⟨a.x + b.x, a.y + b.y⟩⟩
instance : Neg Vec2 := ⟨fun a => ⟨-a.x, -a.y⟩⟩
instance : Sub Vec2 := ⟨fun a b => ⟨a.x - b.x, a.y - b.y⟩⟩
instance : SMul ℝ Vec2 := ⟨fun r a => ⟨r * a.x, r * a.y⟩⟩

@[simp] theorem Vec2.zero_x2 : (0 : Vec2).x = 0 := rfl
@[simp] theorem Vec2.zero_y2 : (0 : Vec2).y = 0 := rfl
@[simp] theorem Vec2.add_x2 (a b : Vec2) : (a + b).x = a.x + b.x := rfl
@[simp] theorem Vec2.add_y2 (a b : Vec2) : (a + b).y = a.y + b.y := rfl
@[simp] theorem Vec2.neg_x2 (a : Vec2) : (-a).x = -a.x := rfl
@[simp] theorem Vec2.neg_y2 (a : Vec2) : (-a).y = -a.y := rfl
@[simp] theorem Vec2.sub_x2 (a b : Vec2) : (a - b).x = a.x - b.x := rfl
@[simp] theorem Vec2.sub_y2 (a b : Vec2) : (a - b).y = a.y - b.y := rfl
@[simp] theorem Vec2.smul_x2 (r : ℝ) (a : Vec2) : (r • a).x = r * a.x := rfl
@[simp] theorem Vec2.smul_y2 (r : ℝ) (a : Vec2) : (r • a).y = r * a.y := rfl

instance : AddCommGroup Vec2 where
  add_assoc a b c := by ext <;> simp <;> ring
  zero_add a := by ext <;> simp
  add_zero a := by ext <;> simp
  add_comm a b := by ext <;> simp <;> ring
  neg_add_cancel a := by ext <;> simp
  sub_eq_add_neg a b := by ext <;> simp <;> ring
  nsmul := nsmulRec
  zsmul := zsmulRec

instance : Module ℝ Vec2 where
  one_smul a := by ext <;> simp
  mul_smul r s a := by ext <;> simp <;> ring
  smul_zero r := by ext <;> simp
  smul_add r a b := by ext <;> simp <;> ring
  add_smul r s a := by ext <;> simp <;> ring
  zero_smul a := by ext <;> simp

/-- Dot product of two dimensional vectors. -/
def Vec2.dot (a b : Vec2) : ℝ := a.x * b.x + a.y * b.y

/-- Squared euclidean length (bevy_math length_squared). -/
def Vec2.lengthSq (a : Vec2) : ℝ := a.dot a

/-- Euclidean length (bevy_math length). -/
def Vec2.length (a : Vec2) : ℝ := Real.sqrt a.lengthSq

/-- Normalisation v / length v (bevy_math normalize).  For the zero vector the
real idealisation yields zero (f32 would yield NaN); every use in the source is
guarded by a degeneracy check. -/
def Vec2.normalize (a : Vec2) : Vec2 := (1 / a.length) • a

/-- Counter-clockwise perpendicular (bevy_math Vec2 perp): (x, y) to (-y, x). -/
def Vec2.perp (a : Vec2) : Vec2 := ⟨-a.y, a.x⟩

/-- Three dimensional vector (bevy_math Vec3). -/
@[ext]
structure Vec3 where
  x : ℝ
  y : ℝ
  z : ℝ

instance : Zero Vec3 := ⟨⟨0, 0, 0⟩⟩
instance : Add Vec3 := ⟨fun a b => ⟨a.x + b.x, a.y + b.y, a.z + b.z⟩⟩
instance : Neg Vec3 := ⟨fun a => ⟨-a.x, -a.y, -a.z⟩⟩
instance : Sub Vec3 := ⟨fun a b => ⟨a.x - b.x, a.y - b.y, a.z - b.z⟩⟩
instance : SMul ℝ Vec3 := ⟨fun r a => ⟨r * a.x, r * a.y, r * a.z⟩⟩

@[simp] theorem Vec3.zero_x3 : (0 : Vec3).x = 0 := rfl
@[simp] theorem Vec3.zero_y3 : (0 : Vec3).y = 0 := rfl
@[simp] theorem Vec3.zero_z3 : (0 : Vec3).z = 0 := rfl
@[simp] theorem Vec3.add_x3 (a b : Vec3) : (a + b).x = a.x + b.x := rfl
@[simp] theorem Vec3.add_y3 (a b : Vec3) : (a + b).y = a.y + b.y := rfl
@[simp] theorem Vec3.add_z3 (a b : Vec3) : (a + b).z = a.z + b.z := rfl
@[simp] theorem Vec3.neg_x3 (a : Vec3) : (-a).x = -a.x := rfl
@[simp] theorem Vec3.neg_y3 (a : Vec3) : (-a).y = -a.y := rfl
@[simp] theorem Vec3.neg_z3 (a : Vec3) : (-a).z = -a.z := rfl
@[simp] theorem Vec3.sub_x3 (a b : Vec3) : (a - b).x = a.x - b.x := rfl
@[simp] theorem Vec3.sub_y3 (a b : Vec3) : (a - b).y = a.y - b.y := rfl
@[simp] theorem Vec3.sub_z3 (a b : Vec3) : (a - b).z = a.z - b.z := rfl
@[simp] theorem Vec3.smul_x3 (r : ℝ) (a : Vec3) : (r • a).x = r * a.x := rfl
@[simp] theorem Vec3.smul_y3 (r : ℝ) (a : Vec3) : (r • a).y = r * a.y := rfl
@[simp] theorem Vec3.smul_z3 (r : ℝ) (a : Vec3) : (r • a).z = r * a.z := rfl

instance : AddCommGroup Vec3 where
  add_assoc a b c := by ext <;> simp <;> ring
  zero_add a := by ext <;> simp
  add_zero a := by ext <;> simp
  add_comm a b := by ext <;> simp <;> ring
  neg_add_cancel a := by ext <;> simp
  sub_eq_add_neg a b := by ext <;> simp <;> ring
  nsmul := nsmulRec
  zsmul := zsmulRec

instance : Module ℝ Vec3 where
  one_smul a := by ext <;> simp
  mul_smul r s a := by ext <;> simp <;> ring
  smul_zero r := by ext <;> simp
  smul_add r a b := by ext <;> simp <;> ring
  add_smul r s a := by ext <;> simp <;> ring
  zero_smul a := by ext <;> simp

/-- Dot product of three dimensional vectors. -/
def Vec3.dot (a b : Vec3) : ℝ := a.x * b.x + a.y * b.y + a.z * b.z

/-- Cross product of three dimensional vectors. -/
def Vec3.cross (a b : Vec3) : Vec3 :=
  ⟨a.y * b.z - a.z * b.y, a.z * b.x - a.x * b.z, a.x * b.y - a.y * b.x⟩

/-- Squared euclidean length. -/
def Vec3.lengthSq (a : Vec3) : ℝ := a.dot a

/-- Euclidean length. -/
def Vec3.length (a : Vec3) : ℝ := Real.sqrt a.lengthSq

/-- Normalisation v / length v; zero for the zero vector in this idealisation. -/
def Vec3.normalize (a : Vec3) : Vec3 := (1 / a.length) • a

/-- Distance between two points. -/
def Vec3.distance (a b : Vec3) : ℝ := (a - b).length

/-- Componentwise clamp helper (f32 clamp for each coordinate). -/
def rclamp (v lo hi : ℝ) : ℝ := max lo (min hi v)

/-- Four dimensional vector (bevy_math Vec4). -/
@[ext]
structure Vec4 where
  x : ℝ
  y : ℝ
  z : ℝ
  w : ℝ

instance : Zero Vec4 := ⟨⟨0, 0, 0, 0⟩⟩
instance : Add Vec4 := ⟨fun a b => ⟨a.x + b.x, a.y + b.y, a.z + b.z, a.w + b.w⟩⟩
instance : Neg Vec4 := ⟨fun a => ⟨-a.x, -a.y, -a.z, -a.w⟩⟩
instance : Sub Vec4 := ⟨fun a b => ⟨a.x - b.x, a.y - b.y, a.z - b.z, a.w - b.w⟩⟩
instance : SMul ℝ Vec4 := ⟨fun r a => ⟨r * a.x, r * a.y, r * a.z, r * a.w⟩⟩

@[simp] theorem Vec4.zero_x4 : (0 : Vec4).x = 0 := rfl
@[simp] theorem Vec4.zero_y4 : (0 : Vec4).y = 0 := rfl
@[simp] theorem Vec4.zero_z4 : (0 : Vec4).z = 0 := rfl
@[simp] theorem Vec4.zero_w : (0 : Vec4).w = 0 := rfl
@[simp] theorem Vec4.add_x4 (a b : Vec4) : (a + b).x = a.x + b.x := rfl
@[simp] theorem Vec4.add_y4 (a b : Vec4) : (a + b).y = a.y + b.y := rfl
@[simp] theorem Vec4.add_z4 (a b : Vec4) : (a + b).z = a.z + b.z := rfl
@[simp] theorem Vec4.add_w (a b : Vec4) : (a + b).w = a.w + b.w := rfl
@[simp] theorem Vec4.neg_x4 (a : Vec4) : (-a).x = -a.x := rfl
@[simp] theorem Vec4.neg_y4 (a : Vec4) : (-a).y = -a.y := rfl
@[simp] theorem Vec4.neg_z4 (a : Vec4) : (-a).z = -a.z := rfl
@[simp] theorem Vec4.neg_w (a : Vec4) : (-a).w = -a.w := rfl
@[simp] theorem Vec4.sub_x4 (a b : Vec4) : (a - b).x = a.x - b.x := rfl
@[simp] theorem Vec4.sub_y4 (a b : Vec4) : (a - b).y = a.y - b.y := rfl
@[simp] theorem Vec4.sub_z4 (a b : Vec4) : (a - b).z = a.z - b.z := rfl
@[simp] theorem Vec4.sub_w (a b : Vec4) : (a - b).w = a.w - b.w := rfl
@[simp] theorem Vec4.smul_x4 (r : ℝ) (a : Vec4) : (r • a).x = r * a.x := rfl
@[simp] theorem Vec4.smul_y4 (r : ℝ) (a : Vec4) : (r • a).y = r * a.y := rfl
@[simp] theorem Vec4.smul_z4 (r : ℝ) (a : Vec4) : (r • a).z = r * a.z := rfl
@[simp] theorem Vec4.smul_w (r : ℝ) (a : Vec4) : (r • a).w = r * a.w := rfl

instance : AddCommGroup Vec4 where
  add_assoc a b c := by ext <;> simp <;> ring
  zero_add a := by ext <;> simp
  add_zero a := by ext <;> simp
  add_comm a b := by ext <;> simp <;> ring
  neg_add_cancel a := by ext <;> simp
  sub_eq_add_neg a b := by ext <;> simp <;> ring
  nsmul := nsmulRec
  zsmul := zsmulRec

instance : Module ℝ Vec4 where
  one_smul a := by ext <;> simp
  mul_smul r s a := by ext <;> simp <;> ring
  smul_zero r := by ext <;> simp
  smul_add r a b := by ext <;> simp <;> ring
  add_smul r s a := by ext <;> simp <;> ring
  zero_smul a := by ext <;> simp

/-- Dot product of four dimensional vectors. -/
def Vec4.dot (a b : Vec4) : ℝ := a.x * b.x + a.y * b.y + a.z * b.z + a.w * b.w

/-- Squared euclidean length. -/
def Vec4.lengthSq (a : Vec4) : ℝ := a.dot a

/-- Euclidean length. -/
def Vec4.length (a : Vec4) : ℝ := Real.sqrt a.lengthSq

/-- Normalisation v / length v; zero for the zero vector in this idealisation. -/
def Vec4.normalize (a : Vec4) : Vec4 := (1 / a.length) • a

/-- First three components (bevy_math Vec4Swizzles xyz). -/
def Vec4.xyz (a : Vec4) : Vec3 := ⟨a.x, a.y, a.z⟩

/-- Drop the fourth component (bevy_math Vec4 truncate). -/
def Vec4.truncate (a : Vec4) : Vec3 := a.xyz

/-- IEEE-style sign function as Rust f32 signum behaves on non-NaN input:
1 for nonnegative (including +0), -1 for negative. -/
def fsignum (v : ℝ) : ℝ := if v < 0 then -1 else 1

/-- Four-quadrant arctangent matching f32::atan2 on finite, non-NaN input. -/
def fatan2 (y x : ℝ) : ℝ :=
  if 0 < x then Real.arctan (y / x)
  else if x < 0 then
    (if y < 0 then Real.arctan (y / x) - Real.pi else Real.arctan (y / x) + Real.pi)
  else if 0 < y then Real.pi / 2
  else if y < 0 then -(Real.pi / 2)
  else 0

/-- A 2D line segment given by origin, direction and parameter bounds
(crates/geometry/src/line_segment_2d.rs). -/
structure LineSegment2D where
  origin : Vec2
  direction : Vec2
  t_min : ℝ
  t_max : ℝ

/-- LineSegment2D::constrain: clamp the projection parameter to the bounds. -/
def LineSegment2D.constrain (s : LineSegment2D) (pt : Vec2) : Vec2 :=
  s.origin + rclamp ((pt - s.origin).dot s.direction) s.t_min s.t_max • s.direction

/-- A 2D ray: origin plus direction (crates/geometry/src/ray_2d.rs). -/
structure Ray2D where
  origin : Vec2
  direction : Vec2

/-- Result of a 2D ray intersection (crates/geometry/src/ray_2d.rs). -/
inductive Ray2DIntersectionResult where
  | none
  | point (t : ℝ)
  | lineSegment (s : LineSegment2D)

/-- Ray2D as Ray2DIntersection: line/line intersection parameter along self,
mirroring the slope-based branches of the source. -/
def Ray2D.intersect (self ray : Ray2D) : Ray2DIntersectionResult :=
  let point := self.origin
  let direction := self.direction
  let other_point := ray.origin
  let other_direction := ray.direction
  if |direction.x * other_direction.y - direction.y * other_direction.x| ≤ EPSILON then
    .none
  else if |other_direction.x| ≤ EPSILON then
    .point ((other_point.x - point.x) / direction.x)
  else if |other_direction.y| ≤ EPSILON then
    .point ((other_point.y - point.y) / direction.y)
  else if |other_direction.x| > |other_direction.y| then
    let slope := other_direction.y / other_direction.x
    let y_intercept := other_point.y - slope * other_point.x
    let denominator := direction.x * slope - direction.y
    if |denominator| ≤ EPSILON then .none
    else .point (-(slope * point.x - point.y + y_intercept) / denominator)
  else
    let slope := other_direction.x / other_direction.y
    let x_intercept := other_point.x - slope * other_point.y
    let denominator := direction.y * slope - direction.x
    if |denominator| ≤ EPSILON then .none
    else .point (-(slope * point.y - point.x + x_intercept) / denominator)

/-- A 2D circle (crates/geometry/src/circle.rs). -/
structure Circle where
  radius : ℝ
  origin : Vec2

/-- Circle::new. -/
def Circle.new (radius : ℝ) (origin : Vec2) : Circle := ⟨radius, origin⟩

/-- Circle as Vec2Operations: contains. -/
def Circle.contains (c : Circle) (pt : Vec2) : Prop :=
  (pt - c.origin).lengthSq ≤ c.radius * c.radius

/-- Circle as Vec2Operations: constrain. -/
def Circle.constrain (c : Circle) (pt : Vec2) : Vec2 :=
  let relative_pt := pt - c.origin
  if relative_pt.lengthSq > c.radius * c.radius then
    c.origin + c.radius • relative_pt.normalize
  else pt

/-- Circle as Ray2DIntersection: chord parameters of a ray against the circle,
including the near-tangent single-point branch, mirroring the source formulas
(with their textual operator precedence). -/
def Circle.intersect (c : Circle) (ray : Ray2D) : Ray2DIntersectionResult :=
  let point := ray.origin - c.origin
  let direction := ray.direction
  let radius := c.radius
  let dr := direction.length
  let x1 := point.x
  let y1 := point.y
  let x2 := point.x + direction.x
  let y2 := point.y + direction.y
  let d := x1 * y2 - x2 * y1
  let discriminant := radius * radius * dr * dr - d * d
  if discriminant < 0 then .none
  else if discriminant < EPSILON then
    let t :=
      if |direction.x| < |direction.y| then
        let yy := -d * direction.x / (dr * dr)
        (yy - y1) / direction.y
      else
        let xx := d * direction.y / (dr * dr)
        (xx - x1) / direction.x
    .point t
  else
    let ta :=
      if |direction.x| < |direction.y| then
        let ya := -d * direction.x + |direction.y| * Real.sqrt discriminant / (dr * dr)
        (ya - y1) / direction.y
      else
        let xa := (d * direction.y + fsignum direction.y * direction.x * Real.sqrt discriminant)
          / (dr * dr)
        (xa - x1) / direction.x
    let tb :=
      if |direction.x| < |direction.y| then
        let yb := -d * direction.x - |direction.y| * Real.sqrt discriminant / (dr * dr)
        (yb - y1) / direction.y
      else
        let xb := (d * direction.y - fsignum direction.y * direction.x * Real.sqrt discriminant)
          / (dr * dr)
        (xb - x1) / direction.x
    .lineSegment ⟨ray.origin, ray.direction, min ta tb, max ta tb⟩

/-- A 4D hyperplane with an orthonormal tangent basis built by Gram-Schmidt
(crates/geometry/src/hyperplane.rs). -/
structure Hyperplane where
  normal : Vec4
  origin : Vec4
  u_direction : Vec4
  v_direction : Vec4
  w_direction : Vec4

/-- Hyperplane::new: normalise the normal, pick the three coordinate axes least
aligned with it, and orthonormalise them by Gram-Schmidt. -/
def Hyperplane.new (origin normal0 : Vec4) : Hyperplane :=
  let normal := normal0.normalize
  let x_dot := |Vec4.dot ⟨1, 0, 0, 0⟩ normal|
  let y_dot := |Vec4.dot ⟨0, 1, 0, 0⟩ normal|
  let z_dot := |Vec4.dot ⟨0, 0, 1, 0⟩ normal|
  let w_dot := |Vec4.dot ⟨0, 0, 0, 1⟩ normal|
  let basis : Vec4 × Vec4 × Vec4 :=
    if x_dot > y_dot ∧ x_dot > z_dot ∧ x_dot > w_dot then
      (⟨0, 1, 0, 0⟩, ⟨0, 0, 1, 0⟩, ⟨0, 0, 0, 1⟩)
    else if y_dot > z_dot ∧ y_dot > w_dot then
      (⟨1, 0, 0, 0⟩, ⟨0, 0, 1, 0⟩, ⟨0, 0, 0, 1⟩)
    else if z_dot > w_dot then
      (⟨1, 0, 0, 0⟩, ⟨0, 1, 0, 0⟩, ⟨0, 0, 0, 1⟩)
    else
      (⟨1, 0, 0, 0⟩, ⟨0, 1, 0, 0⟩, ⟨0, 0, 1, 0⟩)
  let u_direction := (basis.1 - normal.dot basis.1 • normal).normalize
  let v_direction :=
    (basis.2.1 - normal.dot basis.2.1 • normal - u_direction.dot basis.2.1 • u_direction).normalize
  let w_direction :=
    (basis.2.2 - normal.dot basis.2.2 • normal - u_direction.dot basis.2.2 • u_direction - v_direction.dot basis.2.2 • v_direction).normalize
  { normal := normal, origin := origin, u_direction := u_direction,
    v_direction := v_direction, w_direction := w_direction }

/-- Hyperplane::project_4d: embed tangent coordinates back into 4-space. -/
def Hyperplane.project_4d (h : Hyperplane) (p : Vec3) : Vec4 :=
  h.origin + p.x • h.u_direction + p.y • h.v_direction + p.z • h.w_direction

/-- Hyperplane::project_3d: tangent coordinates of a 4D point. -/
def Hyperplane.project_3d (h : Hyperplane) (p : Vec4) : Vec3 :=
  ⟨(p - h.origin).dot h.u_direction, (p - h.origin).dot h.v_direction,
    (p - h.origin).dot h.w_direction⟩

/-- Hyperplane as Vec4Operations: boundary-inclusive containment. -/
def Hyperplane.contains (h : Hyperplane) (pt : Vec4) : Prop :=
  h.normal.dot (pt - h.origin) ≥ -EPSILON

/-- Hyperplane as Vec4Operations: orthogonal projection onto the hyperplane. -/
def Hyperplane.constrain (h : Hyperplane) (pt : Vec4) : Vec4 :=
  pt + (h.normal.dot h.origin - h.normal.dot pt) • h.normal

/-- Hyperplane as Vec4Operations: signed distance. -/
def Hyperplane.signed_distance (h : Hyperplane) (pt : Vec4) : ℝ :=
  h.normal.dot (pt - h.origin)

/-- A 3D plane with an orthonormal in-plane basis (crates/geometry/src/plane.rs). -/
structure Plane where
  normal : Vec3
  origin : Vec3
  u_direction : Vec3
  v_direction : Vec3

/-- Plane::new: normalise the normal, seed with the coordinate axis least
aligned with it, and complete the frame with cross products. -/
def Plane.new (origin normal0 : Vec3) : Plane :=
  let normal := normal0.normalize
  let x_dot := |Vec3.dot ⟨1, 0, 0⟩ normal|
  let y_dot := |Vec3.dot ⟨0, 1, 0⟩ normal|
  let z_dot := |Vec3.dot ⟨0, 0, 1⟩ normal|
  let basis : Vec3 :=
    if x_dot < y_dot ∧ x_dot < z_dot then ⟨1, 0, 0⟩
    else if y_dot < z_dot then ⟨0, 1, 0⟩
    else ⟨0, 0, 1⟩
  let u_direction := (normal.cross basis).normalize
  let v_direction := (normal.cross u_direction).normalize
  { normal := normal, origin := origin, u_direction := u_direction,
    v_direction := v_direction }

/-- Plane::from_hyperplane_intersection: derive the 3D constraint that the
second hyperplane induces on the tangent space of the first. -/
def Plane.from_hyperplane_intersection (plane other : Hyperplane) : Option Plane :=
  let normal_x := plane.u_direction.dot other.normal
  let normal_y := plane.v_direction.dot other.normal
  let normal_z := plane.w_direction.dot other.normal
  let d2 := other.origin.dot other.normal
  let d_result := d2 - plane.origin.dot other.normal
  if |normal_x| < EPSILON ∧ |normal_y| < EPSILON ∧ |normal_z| < EPSILON then
    none
  else
    let normal := (Vec3.mk normal_x normal_y normal_z).normalize
    some (Plane.new (d_result • normal) normal)

/-- Plane::project_2d. -/
def Plane.project_2d (p : Plane) (pt : Vec3) : Vec2 :=
  ⟨p.u_direction.dot (pt - p.origin), p.v_direction.dot (pt - p.origin)⟩

/-- Plane::project_3d. -/
def Plane.project_3d (p : Plane) (q : Vec2) : Vec3 :=
  p.origin + q.x • p.u_direction + q.y • p.v_direction

/-- Plane as Vec3Operations: signed distance. -/
def Plane.signed_distance (p : Plane) (pt : Vec3) : ℝ :=
  p.normal.dot (pt - p.origin)

/-- Plane as Vec3Operations: boundary-inclusive containment. -/
def Plane.contains (p : Plane) (pt : Vec3) : Prop :=
  p.signed_distance pt ≥ -EPSILON

/-- Plane as Vec3Operations: orthogonal projection onto the plane. -/
def Plane.constrain (p : Plane) (pt : Vec3) : Vec3 :=
  pt + (p.normal.dot p.origin - p.normal.dot pt) • p.normal

/-- Plane as Vec3Operations: closest point and outward normal. -/
def Plane.closest_point_and_normal (p : Plane) (pt : Vec3) : Vec3 × Vec3 :=
  (pt + (p.normal.dot p.origin - p.normal.dot pt) • p.normal, p.normal)

/-- A 2D half plane constraint (crates/geometry/src/half_plane.rs). -/
structure HalfPlane where
  normal : Vec2
  point : Vec2

/-- HalfPlane::new normalises the stored normal. -/
def HalfPlane.new (point normal : Vec2) : HalfPlane := ⟨normal.normalize, point⟩

/-- HalfPlane::from_plane_intersection: express, on the first plane, the
half-plane constraint induced by the second plane. -/
def HalfPlane.from_plane_intersection (plane other : Plane) : Option HalfPlane :=
  let d1 := plane.normal.dot plane.origin
  let d2 := other.normal.dot other.origin
  let normals_dot := plane.normal.dot other.normal
  let denominator := 1 - normals_dot ^ 2
  if |denominator| < EPSILON then none
  else
    let k1 := (d1 - d2 * normals_dot) / denominator
    let k2 := (d2 - d1 * normals_dot) / denominator
    let pt := k1 • plane.normal + k2 • other.normal
    let cr := plane.normal.cross other.normal
    let pt2 := pt + cr
    let plane_pt := plane.project_2d pt
    let plane_pt2 := plane.project_2d pt2
    some (HalfPlane.new plane_pt ((plane_pt - plane_pt2).normalize.perp))

/-- HalfPlane as Vec2Operations: signed distance. -/
def HalfPlane.signed_distance (h : HalfPlane) (pt : Vec2) : ℝ :=
  h.normal.dot (pt - h.point)

/-- HalfPlane as Vec2Operations: boundary-inclusive containment. -/
def HalfPlane.contains (h : HalfPlane) (pt : Vec2) : Prop :=
  h.signed_distance pt ≥ -EPSILON

/-- HalfPlane as Vec2Operations: constrain. -/
def HalfPlane.constrain (h : HalfPlane) (pt : Vec2) : Vec2 :=
  if h.signed_distance pt ≥ -EPSILON then pt else pt - h.signed_distance pt • h.normal

/-- A 3D sphere (crates/geometry/src/sphere.rs). -/
structure Sphere where
  radius : ℝ
  origin : Vec3

/-- Sphere::new. -/
def Sphere.new (radius : ℝ) (origin : Vec3) : Sphere := ⟨radius, origin⟩

/-- Sphere as Vec3Operations: contains. -/
def Sphere.contains (s : Sphere) (pt : Vec3) : Prop :=
  (pt - s.origin).lengthSq ≤ s.radius * s.radius

/-- Sphere as Vec3Operations: constrain. -/
def Sphere.constrain (s : Sphere) (pt : Vec3) : Vec3 :=
  let relative_pt := pt - s.origin
  if relative_pt.lengthSq ≤ s.radius * s.radius then pt
  else s.origin + s.radius • relative_pt.normalize

/-- Sphere as Vec3Operations: closest point and outward normal. -/
def Sphere.closest_point_and_normal (s : Sphere) (pt : Vec3) : Vec3 × Vec3 :=
  let relative_pt := pt - s.origin
  if relative_pt.lengthSq ≤ s.radius * s.radius then (pt, relative_pt.normalize)
  else (s.origin + s.radius • relative_pt.normalize, relative_pt.normalize)

/-- Sphere as Vec3Operations: signed distance. -/
def Sphere.signed_distance (s : Sphere) (pt : Vec3) : ℝ :=
  (pt - s.origin).length - s.radius

/-- Sphere::get_secant_plane, the plane separating the sphere from the cone of
tangents through the given outside point. -/
def Sphere.get_secant_plane (s : Sphere) (point : Vec3) : Plane :=
  let relative_pt := point - s.origin
  let radius := s.radius
  let distance_from_point := relative_pt.length
  let side_length := Real.sqrt (distance_from_point ^ 2 - radius ^ 2)
  let angle := Real.arcsin (radius / distance_from_point)
  let distance_to_plane := |side_length * Real.cos angle|
  let direction := relative_pt.normalize
  let origin := |distance_to_plane - distance_from_point| • direction
  Plane.new (origin + s.origin) (-direction)

/-- Sphere::intersect_plane: the circle cut out of the plane, in the plane's
2D coordinates, or None when the plane misses the sphere. -/
def Sphere.intersect_plane (s : Sphere) (plane : Plane) : Option Circle :=
  let plane_pt := (plane.closest_point_and_normal s.origin).1
  let origin_distance := (plane_pt - s.origin).length
  if origin_distance > s.radius then none
  else
    some (Circle.new (Real.sqrt (s.radius * s.radius - origin_distance * origin_distance))
      (plane.project_2d plane_pt))

/-- An axis aligned box (crates/geometry/src/aabb.rs). -/
structure Aabb where
  center : Vec3
  half_sizes : Vec3

/-- Aabb::new. -/
def Aabb.new (center half_sizes : Vec3) : Aabb := ⟨center, half_sizes⟩

/-- Aabb as Vec3Operations: contains. -/
def Aabb.contains (b : Aabb) (pt : Vec3) : Prop :=
  let mn := b.center - b.half_sizes
  let mx := b.center + b.half_sizes
  pt.x ≥ mn.x ∧ pt.x ≤ mx.x ∧ pt.y ≥ mn.y ∧ pt.y ≤ mx.y ∧ pt.z ≥ mn.z ∧ pt.z ≤ mx.z

/-- Aabb as Vec3Operations: constrain clamps each coordinate. -/
def Aabb.constrain (b : Aabb) (pt : Vec3) : Vec3 :=
  let mn := b.center - b.half_sizes
  let mx := b.center + b.half_sizes
  ⟨rclamp pt.x mn.x mx.x, rclamp pt.y mn.y mx.y, rclamp pt.z mn.z mx.z⟩

/-- Aabb as Vec3Operations: closest point and normal; the source compares only
the four y and z faces and projects the point onto the nearest of them. -/
def Aabb.closest_point_and_normal (b : Aabb) (pt : Vec3) : Vec3 × Vec3 :=
  let mn := b.center - b.half_sizes
  let mx := b.center + b.half_sizes
  let distance_to_top_face := |mx.y - pt.y|
  let distance_to_bottom_face := |mn.y - pt.y|
  let distance_to_front_face := |mx.z - pt.z|
  let distance_to_back_face := |mn.z - pt.z|
  if min distance_to_top_face distance_to_bottom_face
      < min distance_to_front_face distance_to_back_face then
    if distance_to_top_face < distance_to_bottom_face then
      (⟨pt.x, mx.y, pt.z⟩, ⟨0, 1, 0⟩)
    else
      (⟨pt.x, mn.y, pt.z⟩, ⟨0, -1, 0⟩)
  else if distance_to_front_face < distance_to_back_face then
    (⟨pt.x, pt.y, mx.z⟩, ⟨0, 0, 1⟩)
  else
    (⟨pt.x, pt.y, mn.z⟩, ⟨0, 0, -1⟩)

/-- Aabb as Vec3Operations: signed distance. -/
def Aabb.signed_distance (b : Aabb) (pt : Vec3) : ℝ :=
  let delta := Vec3.mk (|pt.x - b.center.x| - b.half_sizes.x)
    (|pt.y - b.center.y| - b.half_sizes.y) (|pt.z - b.center.z| - b.half_sizes.z)
  let outside_distance :=
    (Vec3.mk (max delta.x 0) (max delta.y 0) (max delta.z 0)).length
  let inside_distance := min (max delta.x (max delta.y delta.z)) 0
  if outside_distance > 0 then outside_distance else inside_distance

/-- A cone (crates/geometry/src/cone.rs); the solver core only builds the
infinite variant via Collider::extend_cone. -/
structure Cone where
  vertex : Vec3
  direction : Vec3
  radius : ℝ
  min_height : Option ℝ
  max_height : Option ℝ

/-- Cone::infinite. -/
def Cone.infinite (vertex direction : Vec3) (radius : ℝ) : Cone :=
  { vertex := vertex, direction := direction.normalize,
    radius := radius / direction.length, min_height := some 0, max_height := none }

/-- Collider: the tagged union over sphere and axis aligned box
(crates/geometry/src/colliders.rs). -/
inductive Collider where
  | sphere (s : Sphere)
  | aabb (b : Aabb)

/-- Collider::new_sphere. -/
def Collider.new_sphere (radius : ℝ) : Collider := .sphere (Sphere.new radius 0)

/-- Collider::new_aabb. -/
def Collider.new_aabb (center half_sizes : Vec3) : Collider :=
  .aabb (Aabb.new center half_sizes)

/-- Collider::get_secant_plane.  The Aabb arm of the source is an unimplemented
todo!() that aborts at runtime; the shallow embedding records that arm as none. -/
def Collider.get_secant_plane (c : Collider) (point : Vec3) : Option Plane :=
  match c with
  | .sphere s => some (s.get_secant_plane point)
  | .aabb _ => none

/-- Collider::minkowski_sum. -/
def Collider.minkowski_sum (c other : Collider) : Collider :=
  match c, other with
  | .sphere s1, .sphere s2 =>
      .sphere (Sphere.new (s1.radius + s2.radius) (s1.origin - s2.origin))
  | .sphere s, .aabb b =>
      .aabb (Aabb.new (s.origin - b.center)
        (b.half_sizes + ⟨s.radius, s.radius, s.radius⟩))
  | .aabb b, .sphere s =>
      .aabb (Aabb.new (b.center - s.origin)
        (b.half_sizes + ⟨s.radius, s.radius, s.radius⟩))
  | .aabb b1, .aabb b2 =>
      .aabb (Aabb.new (b1.center - b2.center) (b1.half_sizes + b2.half_sizes))

/-- Collider::scale. -/
def Collider.scale (c : Collider) (k : ℝ) : Collider :=
  match c with
  | .sphere s => .sphere (Sphere.new (s.radius * k) s.origin)
  | .aabb b => .aabb (Aabb.new b.center (k • b.half_sizes))

/-- Collider::extend_cone.  The Aabb arm of the source is an unimplemented
todo!() that aborts at runtime; the shallow embedding records that arm as none. -/
def Collider.extend_cone (c : Collider) (vertex : Vec3) : Option Cone :=
  match c with
  | .sphere s => some (Cone.infinite vertex (-vertex) s.radius)
  | .aabb _ => none

/-- Collider::bounding_sphere. -/
def Collider.bounding_sphere (c : Collider) : Sphere :=
  match c with
  | .sphere s => s
  | .aabb b => Sphere.new b.half_sizes.length b.center

/-- Collider as Vec3Operations: contains. -/
def Collider.contains (c : Collider) (pt : Vec3) : Prop :=
  match c with
  | .sphere s => s.contains pt
  | .aabb b => b.contains pt

/-- Collider as Vec3Operations: constrain. -/
def Collider.constrain (c : Collider) (pt : Vec3) : Vec3 :=
  match c with
  | .sphere s => s.constrain pt
  | .aabb b => b.constrain pt

/-- Collider as Vec3Operations: closest point and normal. -/
def Collider.closest_point_and_normal (c : Collider) (pt : Vec3) : Vec3 × Vec3 :=
  match c with
  | .sphere s => s.closest_point_and_normal pt
  | .aabb b => b.closest_point_and_normal pt

/-- Collider as Vec3Operations: signed distance. -/
def Collider.signed_distance (c : Collider) (pt : Vec3) : ℝ :=
  match c with
  | .sphere s => s.signed_distance pt
  | .aabb b => b.signed_distance pt

/-- The spherinder: a ball extruded infinitely along the fourth axis
(crates/geometry/src/spherinder.rs). -/
structure Spherinder where
  origin : Vec4
  radius : ℝ

/-- Spherinder::new. -/
def Spherinder.new (origin : Vec4) (radius : ℝ) : Spherinder := ⟨origin, radius⟩

/-- Spherinder as Vec4Operations: contains tests only the xyz part. -/
def Spherinder.contains (s : Spherinder) (pt : Vec4) : Prop :=
  (pt - s.origin).xyz.lengthSq ≤ s.radius * s.radius

/-- Spherinder as Vec4Operations: constrain renormalises the xyz part and keeps w. -/
def Spherinder.constrain (s : Spherinder) (pt : Vec4) : Vec4 :=
  let relative_pt := pt - s.origin
  let xyz := relative_pt.xyz
  let w := relative_pt.w
  if xyz.lengthSq < s.radius * s.radius then pt
  else
    let new_xyz := s.radius • xyz.normalize
    s.origin + ⟨new_xyz.x, new_xyz.y, new_xyz.z, w⟩

/-- Spherinder as Vec4Operations: signed distance of the xyz part. -/
def Spherinder.signed_distance (s : Spherinder) (pt : Vec4) : ℝ :=
  (pt - s.origin).xyz.length - s.radius

/-- A 3x3 matrix of columns (glam Mat3, column major). -/
structure Mat3 where
  x_axis : Vec3
  y_axis : Vec3
  z_axis : Vec3

/-- Mat3::from_translation for 2D affine transforms. -/
def Mat3.from_translation (t : Vec2) : Mat3 :=
  ⟨⟨1, 0, 0⟩, ⟨0, 1, 0⟩, ⟨t.x, t.y, 1⟩⟩

/-- Mat3::from_angle: rotation about the homogeneous axis. -/
def Mat3.from_angle (θ : ℝ) : Mat3 :=
  ⟨⟨Real.cos θ, Real.sin θ, 0⟩, ⟨-Real.sin θ, Real.cos θ, 0⟩, ⟨0, 0, 1⟩⟩

/-- Matrix times column vector (glam mul_vec3). -/
def Mat3.mul_vec3 (m : Mat3) (v : Vec3) : Vec3 :=
  v.x • m.x_axis + v.y • m.y_axis + v.z • m.z_axis

/-- Matrix product (glam Mat3 multiplication). -/
def Mat3.mul (m n : Mat3) : Mat3 :=
  ⟨m.mul_vec3 n.x_axis, m.mul_vec3 n.y_axis, m.mul_vec3 n.z_axis⟩

/-- Matrix transpose. -/
def Mat3.transpose (m : Mat3) : Mat3 :=
  ⟨⟨m.x_axis.x, m.y_axis.x, m.z_axis.x⟩, ⟨m.x_axis.y, m.y_axis.y, m.z_axis.y⟩,
    ⟨m.x_axis.z, m.y_axis.z, m.z_axis.z⟩⟩

/-- Matrix inverse by the adjugate formula, as glam Mat3::inverse computes it.
A singular matrix divides by a zero determinant, which the real idealisation
maps to the zero matrix; every use in the source inverts an invertible affine
transform. -/
def Mat3.inverse (m : Mat3) : Mat3 :=
  let tmp0 := m.y_axis.cross m.z_axis
  let tmp1 := m.z_axis.cross m.x_axis
  let tmp2 := m.x_axis.cross m.y_axis
  let det := m.z_axis.dot tmp2
  let inv_det := 1 / det
  Mat3.transpose ⟨inv_det • tmp0, inv_det • tmp1, inv_det • tmp2⟩

/-- glam transform_point2: apply the affine transform to a 2D point. -/
def Mat3.transform_point2 (m : Mat3) (p : Vec2) : Vec2 :=
  ⟨m.x_axis.x * p.x + m.y_axis.x * p.y + m.z_axis.x,
    m.x_axis.y * p.x + m.y_axis.y * p.y + m.z_axis.y⟩

/-- glam transform_vector2: apply only the linear part. -/
def Mat3.transform_vector2 (m : Mat3) (p : Vec2) : Vec2 :=
  ⟨m.x_axis.x * p.x + m.y_axis.x * p.y, m.x_axis.y * p.x + m.y_axis.y * p.y⟩

/-- The intersection of a spherinder and a hyperplane, kept symbolically as the
pair (crates/geometry/src/spherinder_hyperplane_intersecion.rs). -/
structure SpherinderHyperplaneIntersecion where
  spherinder : Spherinder
  hyperplane : Hyperplane

/-- SpherinderHyperplaneIntersecion::new. -/
def SpherinderHyperplaneIntersecion.new (s : Spherinder) (h : Hyperplane) :
    SpherinderHyperplaneIntersecion := ⟨s, h⟩

/-- SpherinderHyperplaneIntersecion as Vec3Operations: constrain lifts to 4D,
constrains inside the spherinder, re-solves the w coordinate from the
hyperplane equation unless the hyperplane is w-degenerate, and projects back. -/
def SpherinderHyperplaneIntersecion.constrain (sh : SpherinderHyperplaneIntersecion)
    (pt : Vec3) : Vec3 :=
  let d4_point := sh.hyperplane.project_4d pt
  let constrained4d := sh.spherinder.constrain d4_point
  if |sh.hyperplane.normal.w| < EPSILON then
    sh.hyperplane.project_3d constrained4d
  else
    let d := sh.hyperplane.normal.dot sh.hyperplane.origin
    let w := (d - (sh.hyperplane.normal.xyz.dot constrained4d.xyz)) / sh.hyperplane.normal.w
    sh.hyperplane.project_3d ⟨constrained4d.x, constrained4d.y, constrained4d.z, w⟩

/-- The ellipse cut out of a plane inside a spherinder-hyperplane intersection
(crates/geometry/src/spherinder_hyperplane_plane_intersecion.rs). -/
structure SpherinderHyperplanePlaneIntersection where
  semi_major_axis : ℝ
  semi_minor_axis : ℝ
  center : Vec2
  transform : Mat3
  transform_inv : Mat3

/-- SpherinderHyperplanePlaneIntersection::new precomputes the inverse
transform. -/
def SpherinderHyperplanePlaneIntersection.new (semi_major_axis semi_minor_axis : ℝ)
    (center : Vec2) (transform : Mat3) : SpherinderHyperplanePlaneIntersection :=
  ⟨semi_major_axis, semi_minor_axis, center, transform, transform.inverse⟩

/-- Ellipse as Vec2Operations: constrain.  The source tests
x_sq / a_sq + y_sq / b_sq <= 1.0 under IEEE arithmetic, where a zero
denominator yields an infinite or NaN quotient and the comparison fails; the
embedded condition states exactly that behaviour over the reals. -/
def SpherinderHyperplanePlaneIntersection.constrain
    (el : SpherinderHyperplanePlaneIntersection) (pt : Vec2) : Vec2 :=
  let pt_ellipse_space := el.transform_inv.transform_point2 pt
  let a_sq := el.semi_major_axis ^ 2
  let b_sq := el.semi_minor_axis ^ 2
  let xe := pt_ellipse_space.x
  let ye := pt_ellipse_space.y
  if a_sq ≠ 0 ∧ b_sq ≠ 0 ∧ xe ^ 2 / a_sq + ye ^ 2 / b_sq ≤ 1 then pt
  else
    let angle := fatan2 ye xe
    el.transform.transform_point2
      ⟨el.semi_major_axis * Real.cos angle, el.semi_minor_axis * Real.sin angle⟩

/-- Ellipse as Ray2DIntersection: chord parameters of a ray against the
ellipse, computed in ellipse space. -/
def SpherinderHyperplanePlaneIntersection.intersect
    (el : SpherinderHyperplanePlaneIntersection) (ray : Ray2D) : Ray2DIntersectionResult :=
  let origin_ellipse_space := el.transform_inv.transform_point2 ray.origin
  let direction_ellipse_space := el.transform_inv.transform_vector2 ray.direction
  let a := el.semi_major_axis
  let b := el.semi_minor_axis
  let a_sq := a ^ 2
  let b_sq := b ^ 2
  let x0 := origin_ellipse_space.x
  let y0 := origin_ellipse_space.y
  let dx := direction_ellipse_space.x
  let dy := direction_ellipse_space.y
  let k := b_sq * dx ^ 2 + a_sq * dy ^ 2 - dy ^ 2 * x0 ^ 2 + 2 * dx * dy * x0 * y0
    - dx ^ 2 * y0 ^ 2
  if k < 0 then .none
  else
    let denominator := b_sq * dx ^ 2 + a_sq * dy ^ 2
    if |denominator| < EPSILON then .none
    else
      let h := b_sq * dx * x0 + a_sq * dy * y0
      if |k| < EPSILON then .point (-h / denominator)
      else
        let t1 := (-h + Real.sqrt k * a * b) / denominator
        let t2 := (-h - Real.sqrt k * a * b) / denominator
        .lineSegment ⟨ray.origin, ray.direction, min t2 t1, max t2 t1⟩

/-- The big coefficient computation of
SpherinderHyperplaneIntersecion::intersect (PlaneIntersecion): express the
4D xyz ball constraint as a conic in the plane coordinates and extract center,
rotation and semi-axes of the resulting ellipse. -/
def SpherinderHyperplaneIntersecion.intersect_plane (sh : SpherinderHyperplaneIntersecion)
    (plane : Plane) : Option SpherinderHyperplanePlaneIntersection :=
  let a1 := sh.hyperplane.w_direction.xyz.lengthSq
  let a2 := sh.hyperplane.v_direction.xyz.lengthSq
  let a3 := sh.hyperplane.u_direction.xyz.lengthSq
  let a4 := 2 * sh.hyperplane.w_direction.xyz.dot sh.hyperplane.v_direction.xyz
  let a5 := 2 * sh.hyperplane.w_direction.xyz.dot sh.hyperplane.u_direction.xyz
  let a6 := 2 * sh.hyperplane.v_direction.xyz.dot sh.hyperplane.u_direction.xyz
  let a7 := 2 * sh.hyperplane.w_direction.xyz.dot sh.hyperplane.origin.xyz
  let a8 := 2 * sh.hyperplane.v_direction.xyz.dot sh.hyperplane.origin.xyz
  let a9 := 2 * sh.hyperplane.u_direction.xyz.dot sh.hyperplane.origin.xyz
  let a10 := sh.hyperplane.origin.xyz.lengthSq - sh.spherinder.radius * sh.spherinder.radius
  let px_0 := plane.origin.x
  let py_0 := plane.origin.y
  let pz_0 := plane.origin.z
  let px_u := plane.u_direction.x
  let py_u := plane.u_direction.y
  let pz_u := plane.u_direction.z
  let px_v := plane.v_direction.x
  let py_v := plane.v_direction.y
  let pz_v := plane.v_direction.z
  let a := a3 * px_v ^ 2 + a6 * px_v * py_v + a2 * py_v ^ 2 + a5 * px_v * pz_v
    + a4 * py_v * pz_v + a1 * pz_v ^ 2
  let b := 2 * a3 * px_u * px_v + a6 * px_v * py_u + a6 * px_u * py_v
    + 2 * a2 * py_u * py_v + a5 * px_v * pz_u + a4 * py_v * pz_u + a5 * px_u * pz_v
    + a4 * py_u * pz_v + 2 * a1 * pz_u * pz_v
  let c := a3 * px_u ^ 2 + a6 * px_u * py_u + a2 * py_u ^ 2 + a5 * px_u * pz_u
    + a4 * py_u * pz_u + a1 * pz_u ^ 2
  let d := 2 * a3 * px_0 * px_v + a6 * px_v * py_0 + a6 * px_0 * py_v
    + 2 * a2 * py_0 * py_v + a5 * px_v * pz_0 + a4 * py_v * pz_0 + a5 * px_0 * pz_v
    + a4 * py_0 * pz_v + 2 * a1 * pz_0 * pz_v + a9 * px_v + a8 * py_v + a7 * pz_v
  let e := 2 * a3 * px_0 * px_u + a6 * px_u * py_0 + a6 * px_0 * py_u
    + 2 * a2 * py_0 * py_u + a5 * px_u * pz_0 + a4 * py_u * pz_0 + a5 * px_0 * pz_u
    + a4 * py_0 * pz_u + 2 * a1 * pz_0 * pz_u + a9 * px_u + a8 * py_u + a7 * pz_u
  let f := a3 * px_0 ^ 2 + a6 * px_0 * py_0 + a2 * py_0 ^ 2 + a5 * px_0 * pz_0
    + a4 * py_0 * pz_0 + a1 * pz_0 ^ 2 + a9 * px_0 + a8 * py_0 + a7 * pz_0 + a10
  let determinant := b ^ 2 - 4 * a * c
  let center := Vec2.mk ((2 * a * e - b * d) / determinant) ((2 * c * d - b * e) / determinant)
  let theta_angle := 0.5 * fatan2 (-b) (a - c) + Real.pi / 2
  let translation := Mat3.from_translation center
  let rotation := Mat3.from_angle theta_angle
  let transform := translation.mul rotation
  let k := 2 * (a * e ^ 2 + c * d ^ 2 - b * d * e + determinant * f)
  let h := Real.sqrt ((a - c) ^ 2 + b ^ 2)
  let i := k * ((a + c) + h)
  let j := k * ((a + c) - h)
  if |determinant| < EPSILON ∨ i < 0 ∨ j < 0 then none
  else
    some (SpherinderHyperplanePlaneIntersection.new (-Real.sqrt j / determinant)
      (-Real.sqrt i / determinant) center transform)

/-- The MaximumVelocityShape2D trait of solver_2d.rs as a record: the ways the
2D solver queries its bounding region. -/
structure Shape2D where
  constrain : Vec2 → Vec2
  get_bounds_on_line : Vec2 → Vec2 → Option (ℝ × ℝ)

/-- The blanket MaximumVelocityShape2D implementation derives bounds from a
Ray2DIntersection instance. -/
def boundsOnLine (intersect : Ray2D → Ray2DIntersectionResult) (point direction : Vec2) :
    Option (ℝ × ℝ) :=
  match intersect ⟨point, direction⟩ with
  | .none => none
  | .point t => some (t, t)
  | .lineSegment s => some (s.t_min, s.t_max)

/-- Circle as MaximumVelocityShape2D. -/
def Circle.toShape2D (c : Circle) : Shape2D :=
  ⟨c.constrain, boundsOnLine c.intersect⟩

/-- Ellipse as MaximumVelocityShape2D. -/
def SpherinderHyperplanePlaneIntersection.toShape2D
    (el : SpherinderHyperplanePlaneIntersection) : Shape2D :=
  ⟨el.constrain, boundsOnLine el.intersect⟩

/-- The MaximumVelocityShape3D trait of solver_3d.rs as a record. -/
structure Shape3D where
  constrain : Vec3 → Vec3
  project_on_plane : Plane → Option Shape2D

/-- Sphere as MaximumVelocityShape3D (its PlaneIntersecion returns the circle). -/
def Sphere.toShape3D (s : Sphere) : Shape3D :=
  ⟨s.constrain, fun plane => (s.intersect_plane plane).map Circle.toShape2D⟩

/-- SpherinderHyperplaneIntersecion as MaximumVelocityShape3D. -/
def SpherinderHyperplaneIntersecion.toShape3D (sh : SpherinderHyperplaneIntersecion) :
    Shape3D :=
  ⟨sh.constrain,
    fun plane => (sh.intersect_plane plane).map SpherinderHyperplanePlaneIntersection.toShape2D⟩

/-- The MaximumVelocityShape4D trait of solver_4d.rs as a record. -/
structure Shape4D where
  constrain : Vec4 → Vec4
  project_on_hyperplane : Hyperplane → Option Shape3D

/-- Spherinder as MaximumVelocityShape4D; its HyperplaneIntersection always
returns the symbolic intersection shape. -/
def Spherinder.toShape4D (s : Spherinder) : Shape4D :=
  ⟨s.constrain, fun hp => some (SpherinderHyperplaneIntersecion.new s hp).toShape3D⟩

/-- OptimizationResult2D (crates/orca/src/solver_2d.rs). -/
inductive OptimizationResult2D where
  | feasible (optimal_velocity : Vec2)
  | infeasible (last_optimal_velocity : Vec2)

/-- OptimizationResult3D (crates/orca/src/solver_3d.rs). -/
inductive OptimizationResult3D where
  | feasible (optimal_velocity : Vec3)
  | infeasible (last_optimal_velocity : Vec3)

/-- OptimizationResult4D (crates/orca/src/solver_4d.rs). -/
inductive OptimizationResult4D where
  | feasible (optimal_velocity : Vec4)
  | infeasible (last_optimal_velocity : Vec4)

/-- The inner loop of incremental_optimization_2d: fold the previously
processed half planes into the parameter interval along the current boundary
line, returning none at the first contradiction, exactly in source order. -/
def shrinkBounds (point direction : Vec2) (prev : List HalfPlane)
    (min_bound max_bound : ℝ) : Option (ℝ × ℝ) :=
  match prev with
  | [] => some (min_bound, max_bound)
  | hj :: rest =>
    let min_bound_point := point + min_bound • direction
    let max_bound_point := point + max_bound • direction
    if hj.contains min_bound_point ∧ hj.contains max_bound_point then
      shrinkBounds point direction rest min_bound max_bound
    else
      match Ray2D.intersect ⟨point, direction⟩ ⟨hj.point, hj.normal.perp⟩ with
      | .point line_intersection =>
        if ¬ hj.contains min_bound_point ∧ ¬ (line_intersection > min_bound) then none
        else
          let min2 := if hj.contains min_bound_point then min_bound else line_intersection
          if ¬ hj.contains max_bound_point ∧ ¬ (line_intersection < max_bound) then none
          else
            let max2 := if hj.contains max_bound_point then max_bound else line_intersection
            shrinkBounds point direction rest min2 max2
      | _ => none

/-- The interval epilogue of incremental_optimization_2d: collapse bounds that
agree to within EPSILON to their average, then fail on an inverted interval. -/
def collapseBounds (min_bound max_bound : ℝ) : ℝ × ℝ :=
  if |min_bound - max_bound| < EPSILON then
    ((min_bound + max_bound) / 2, (min_bound + max_bound) / 2)
  else (min_bound, max_bound)

/-- Finish one half-plane step: collapse the interval, declare infeasibility on
inversion, otherwise project the optimum onto the clamped boundary segment. -/
def finalizeInterval (point direction : Vec2) (opt : Vec2) (min_bound max_bound : ℝ) :
    Option Vec2 :=
  let c := collapseBounds min_bound max_bound
  if c.1 > c.2 then none
  else some ((LineSegment2D.mk point direction c.1 c.2).constrain opt)

/-- One half-plane step of incremental_optimization_2d, entered when the
current optimum violates the half plane; none means the 2D problem is
infeasible at this step. -/
def step2d (shape : Shape2D) (prev : List HalfPlane) (hp : HalfPlane) (opt : Vec2) :
    Option Vec2 :=
  let direction := hp.normal.perp
  let point := hp.point
  match shape.get_bounds_on_line point direction with
  | some bounds =>
    match shrinkBounds point direction prev bounds.1 bounds.2 with
    | none => none
    | some m => finalizeInterval point direction opt m.1 m.2
  | none => if hp.contains opt then some opt else none

/-- The main loop of incremental_optimization_2d over the remaining half
planes, carrying the processed prefix and the current optimum. -/
def go2d (shape : Shape2D) (prev : List HalfPlane) (opt : Vec2) :
    List HalfPlane → OptimizationResult2D
  | [] => .feasible opt
  | hp :: rest =>
    if hp.contains opt then go2d shape (prev ++ [hp]) opt rest
    else
      match step2d shape prev hp opt with
      | some opt2 => go2d shape (prev ++ [hp]) opt2 rest
      | none => .infeasible opt

/-- incremental_optimization_2d (crates/orca/src/solver_2d.rs). -/
def incremental_optimization_2d (preffered_velocity : Vec2) (maximum_velocity : Shape2D)
    (half_planes : List HalfPlane) : OptimizationResult2D :=
  go2d maximum_velocity [] (maximum_velocity.constrain preffered_velocity) half_planes

/-- One plane step of incremental_optimization_3d, entered when the current
optimum violates the plane; none means infeasibility at this step. -/
def step3d (shape : Shape3D) (prev : List Plane) (plane : Plane) (opt : Vec3) :
    Option Vec3 :=
  match shape.project_on_plane plane with
  | none => none
  | some shape2d =>
    let opt_on_plane := plane.project_2d (plane.closest_point_and_normal opt).1
    let half_planes := prev.filterMap (fun pj => HalfPlane.from_plane_intersection plane pj)
    match incremental_optimization_2d opt_on_plane shape2d half_planes with
    | .feasible q => some (plane.project_3d q)
    | .infeasible _ => none

/-- The main loop of incremental_optimization_3d. -/
def go3d (shape : Shape3D) (prev : List Plane) (opt : Vec3) :
    List Plane → OptimizationResult3D
  | [] => .feasible opt
  | plane :: rest =>
    if plane.contains opt then go3d shape (prev ++ [plane]) opt rest
    else
      match step3d shape prev plane opt with
      | some opt2 => go3d shape (prev ++ [plane]) opt2 rest
      | none => .infeasible opt

/-- incremental_optimization_3d (crates/orca/src/solver_3d.rs). -/
def incremental_optimization_3d (preffered_velocity : Vec3) (bounding_shape : Shape3D)
    (planes : List Plane) : OptimizationResult3D :=
  go3d bounding_shape [] (bounding_shape.constrain preffered_velocity) planes

/-- One hyperplane step of incremental_optimization_4d. -/
def step4d (shape : Shape4D) (prev : List Hyperplane) (hp : Hyperplane) (opt : Vec4) :
    Option Vec4 :=
  match shape.project_on_hyperplane hp with
  | none => none
  | some shape3d =>
    let opt_on_hyperplane := hp.project_3d (hp.constrain opt)
    let planes := prev.filterMap (fun hj => Plane.from_hyperplane_intersection hp hj)
    match incremental_optimization_3d opt_on_hyperplane shape3d planes with
    | .feasible q => some (hp.project_4d q)
    | .infeasible _ => none

/-- The main loop of incremental_optimization_4d. -/
def go4d (shape : Shape4D) (prev : List Hyperplane) (opt : Vec4) :
    List Hyperplane → OptimizationResult4D
  | [] => .feasible opt
  | hp :: rest =>
    if hp.contains opt then go4d shape (prev ++ [hp]) opt rest
    else
      match step4d shape prev hp opt with
      | some opt2 => go4d shape (prev ++ [hp]) opt2 rest
      | none => .infeasible opt

/-- incremental_optimization_4d (crates/orca/src/solver_4d.rs). -/
def incremental_optimization_4d (preffered_velocity : Vec4) (bounding_shape : Shape4D)
    (hyperplanes : List Hyperplane) : OptimizationResult4D :=
  go4d bounding_shape [] (bounding_shape.constrain preffered_velocity) hyperplanes

/-- Lift a 3D ORCA plane to the 4D slack hyperplane used by the fallback:
origin gains fourth coordinate 0, the normal gains slack coefficient 0.2. -/
def liftPlaneTo4D (p : Plane) : Hyperplane :=
  Hyperplane.new ⟨p.origin.x, p.origin.y, p.origin.z, 0⟩
    ⟨p.normal.x, p.normal.y, p.normal.z, 0.2⟩

/-- optimize_velocity_3d, the public entry point (crates/orca/src/lib.rs):
solve in 3D inside the maximum-speed sphere; on infeasibility re-solve in 4D
inside a spherinder with slack hyperplanes and truncate the answer. -/
def optimize_velocity_3d (preffered_velocity : Vec3) (maximum_velocity : ℝ)
    (planes : List Plane) : Vec3 :=
  match incremental_optimization_3d preffered_velocity
      (Sphere.new maximum_velocity 0).toShape3D planes with
  | .feasible v => v
  | .infeasible _ =>
    let hyperplanes := planes.map liftPlaneTo4D
    match incremental_optimization_4d
        ⟨preffered_velocity.x, preffered_velocity.y, preffered_velocity.z, -1000⟩
        (Spherinder.new 0 maximum_velocity).toShape4D hyperplanes with
    | .feasible v => v.truncate
    | .infeasible lv => lv.truncate

/-- Agent3D (crates/orca/src/agent_3d.rs). -/
structure Agent3D where
  position : Vec3
  velocity : Vec3
  shape : Collider
  responsibility : ℝ

/-- Agent3D::new sets the default responsibility 0.5. -/
def Agent3D.new (position velocity : Vec3) (shape : Collider) : Agent3D :=
  ⟨position, velocity, shape, 0.5⟩

/-- VelocityObstacle3D (crates/orca/src/velocity_obstacle_3d.rs). -/
structure VelocityObstacle3D where
  relative_position : Vec3
  relative_velocity : Vec3
  shape : Collider
  cutoff_shape : Collider
  agent_velocity : Vec3
  time_horizon : ℝ
  responsibility : ℝ

/-- VelocityObstacle3D::new: Minkowski sum of the shapes, cutoff scaling, and
the normalised reciprocal responsibility share of the self agent. -/
def VelocityObstacle3D.new (agent_self agent_other : Agent3D) (time_horizon : ℝ) :
    VelocityObstacle3D :=
  let shape := agent_self.shape.minkowski_sum agent_other.shape
  let cutoff_shape := shape.scale (1 / time_horizon)
  let relative_position := agent_other.position - agent_self.position
  let relative_velocity := agent_self.velocity - agent_other.velocity
  let agent_velocity := agent_self.velocity
  let total_responsibility := agent_self.responsibility + agent_other.responsibility
  let agent_self_responsibility := agent_self.responsibility / total_responsibility
  { relative_position := relative_position, relative_velocity := relative_velocity,
    shape := shape, cutoff_shape := cutoff_shape, agent_velocity := agent_velocity,
    time_horizon := time_horizon, responsibility := agent_self_responsibility }

/-! ### Basic vector algebra lemmas -/

theorem sqrt_eval {a b : ℝ} (hb : 0 ≤ b) (h : b * b = a) : Real.sqrt a = b := by
  rw [← h]
  exact Real.sqrt_mul_self hb

theorem Vec2.dot_comm2 (a b : Vec2) : a.dot b = b.dot a := by
  simp [Vec2.dot]; ring

theorem Vec3.dot_comm3 (a b : Vec3) : a.dot b = b.dot a := by
  simp [Vec3.dot]; ring

theorem Vec4.dot_comm4 (a b : Vec4) : a.dot b = b.dot a := by
  simp [Vec4.dot]; ring

@[simp] theorem Vec2.dot_add_left2 (a b c : Vec2) : (a + b).dot c = a.dot c + b.dot c := by
  simp [Vec2.dot]; ring

@[simp] theorem Vec2.dot_add_right2 (a b c : Vec2) : a.dot (b + c) = a.dot b + a.dot c := by
  simp [Vec2.dot]; ring

@[simp] theorem Vec2.dot_sub_left2 (a b c : Vec2) : (a - b).dot c = a.dot c - b.dot c := by
  simp [Vec2.dot]; ring

@[simp] theorem Vec2.dot_sub_right2 (a b c : Vec2) : a.dot (b - c) = a.dot b - a.dot c := by
  simp [Vec2.dot]; ring

@[simp] theorem Vec2.dot_smul_left2 (r : ℝ) (a b : Vec2) : (r • a).dot b = r * a.dot b := by
  simp [Vec2.dot]; ring

@[simp] theorem Vec2.dot_smul_right2 (r : ℝ) (a b : Vec2) : a.dot (r • b) = r * a.dot b := by
  simp [Vec2.dot]; ring

@[simp] theorem Vec2.dot_zero_left2 (a : Vec2) : Vec2.dot 0 a = 0 := by simp [Vec2.dot]

@[simp] theorem Vec2.dot_zero_right2 (a : Vec2) : a.dot 0 = 0 := by simp [Vec2.dot]

@[simp] theorem Vec3.dot_add_left3 (a b c : Vec3) : (a + b).dot c = a.dot c + b.dot c := by
  simp [Vec3.dot]; ring

@[simp] theorem Vec3.dot_add_right3 (a b c : Vec3) : a.dot (b + c) = a.dot b + a.dot c := by
  simp [Vec3.dot]; ring

@[simp] theorem Vec3.dot_sub_left3 (a b c : Vec3) : (a - b).dot c = a.dot c - b.dot c := by
  simp [Vec3.dot]; ring

@[simp] theorem Vec3.dot_sub_right3 (a b c : Vec3) : a.dot (b - c) = a.dot b - a.dot c := by
  simp [Vec3.dot]; ring

@[simp] theorem Vec3.dot_smul_left3 (r : ℝ) (a b : Vec3) : (r • a).dot b = r * a.dot b := by
  simp [Vec3.dot]; ring

@[simp] theorem Vec3.dot_smul_right3 (r : ℝ) (a b : Vec3) : a.dot (r • b) = r * a.dot b := by
  simp [Vec3.dot]; ring

@[simp] theorem Vec3.dot_neg_left (a b : Vec3) : (-a).dot b = -(a.dot b) := by
  simp [Vec3.dot]; ring

@[simp] theorem Vec3.dot_neg_right (a b : Vec3) : a.dot (-b) = -(a.dot b) := by
  simp [Vec3.dot]; ring

@[simp] theorem Vec3.dot_zero_left3 (a : Vec3) : Vec3.dot 0 a = 0 := by simp [Vec3.dot]

@[simp] theorem Vec3.dot_zero_right3 (a : Vec3) : a.dot 0 = 0 := by simp [Vec3.dot]

@[simp] theorem Vec4.dot_add_left4 (a b c : Vec4) : (a + b).dot c = a.dot c + b.dot c := by
  simp [Vec4.dot]; ring

@[simp] theorem Vec4.dot_add_right4 (a b c : Vec4) : a.dot (b + c) = a.dot b + a.dot c := by
  simp [Vec4.dot]; ring

@[simp] theorem Vec4.dot_sub_left4 (a b c : Vec4) : (a - b).dot c = a.dot c - b.dot c := by
  simp [Vec4.dot]; ring

@[simp] theorem Vec4.dot_sub_right4 (a b c : Vec4) : a.dot (b - c) = a.dot b - a.dot c := by
  simp [Vec4.dot]; ring

@[simp] theorem Vec4.dot_smul_left4 (r : ℝ) (a b : Vec4) : (r • a).dot b = r * a.dot b := by
  simp [Vec4.dot]; ring

@[simp] theorem Vec4.dot_smul_right4 (r : ℝ) (a b : Vec4) : a.dot (r • b) = r * a.dot b := by
  simp [Vec4.dot]; ring

@[simp] theorem Vec4.dot_zero_left4 (a : Vec4) : Vec4.dot 0 a = 0 := by simp [Vec4.dot]

@[simp] theorem Vec4.dot_zero_right4 (a : Vec4) : a.dot 0 = 0 := by simp [Vec4.dot]

theorem Vec2.lengthSq_nonneg2 (a : Vec2) : 0 ≤ a.lengthSq := by
  simp only [Vec2.lengthSq, Vec2.dot]
  nlinarith [sq_nonneg a.x, sq_nonneg a.y]

theorem Vec3.lengthSq_nonneg3 (a : Vec3) : 0 ≤ a.lengthSq := by
  simp only [Vec3.lengthSq, Vec3.dot]
  nlinarith [sq_nonneg a.x, sq_nonneg a.y, sq_nonneg a.z]

theorem Vec2.length_nonneg2 (a : Vec2) : 0 ≤ a.length := Real.sqrt_nonneg _

theorem Vec3.length_nonneg3 (a : Vec3) : 0 ≤ a.length := Real.sqrt_nonneg _

theorem Vec2.sq_length2 (a : Vec2) : a.length * a.length = a.lengthSq :=
  Real.mul_self_sqrt a.lengthSq_nonneg2

theorem Vec3.sq_length3 (a : Vec3) : a.length * a.length = a.lengthSq :=
  Real.mul_self_sqrt a.lengthSq_nonneg3

theorem Vec2.normalize_self_dot2 (a : Vec2) (h : a.lengthSq ≠ 0) :
    a.normalize.dot a.normalize = 1 := by
  have hl : a.length * a.length = a.lengthSq := a.sq_length2
  have hlne : a.length ≠ 0 := fun hz => h (by rw [← hl, hz, mul_zero])
  simp only [Vec2.normalize, Vec2.dot_smul_left2, Vec2.dot_smul_right2]
  rw [show (1 / a.length) * ((1 / a.length) * a.dot a) = (a.dot a) / (a.length * a.length) by ring,
    hl]
  exact div_self h

theorem Vec3.normalize_self_dot3 (a : Vec3) (h : a.lengthSq ≠ 0) :
    a.normalize.dot a.normalize = 1 := by
  have hl : a.length * a.length = a.lengthSq := a.sq_length3
  have hlne : a.length ≠ 0 := fun hz => h (by rw [← hl, hz, mul_zero])
  simp only [Vec3.normalize, Vec3.dot_smul_left3, Vec3.dot_smul_right3]
  rw [show (1 / a.length) * ((1 / a.length) * a.dot a) = (a.dot a) / (a.length * a.length) by ring,
    hl]
  exact div_self h

theorem Vec3.cauchy_schwarz (a b : Vec3) : (a.dot b) ^ 2 ≤ a.lengthSq * b.lengthSq := by
  simp only [Vec3.dot, Vec3.lengthSq]
  nlinarith [sq_nonneg (a.x * b.y - a.y * b.x), sq_nonneg (a.x * b.z - a.z * b.x),
    sq_nonneg (a.y * b.z - a.z * b.y)]

/-! ### Claim C9: responsibility partition -/

/-- C9: for agents with positive responsibilities, the responsibility recorded
by VelocityObstacle3D::new for (a, b) plus the one for (b, a) is exactly 1, and
each is that agent's share of the pair total. -/
theorem responsibility_partition (a b : Agent3D) (tau : ℝ)
    (ha : 0 < a.responsibility) (hb : 0 < b.responsibility) :
    (VelocityObstacle3D.new a b tau).responsibility
        + (VelocityObstacle3D.new b a tau).responsibility = 1 ∧
    (VelocityObstacle3D.new a b tau).responsibility
        = a.responsibility / (a.responsibility + b.responsibility) ∧
    (VelocityObstacle3D.new b a tau).responsibility
        = b.responsibility / (b.responsibility + a.responsibility) := by
  have hsum : a.responsibility + b.responsibility ≠ 0 := ne_of_gt (by linarith)
  have hsum2 : b.responsibility + a.responsibility ≠ 0 := ne_of_gt (by linarith)
  refine ⟨?_, rfl, rfl⟩
  show a.responsibility / (a.responsibility + b.responsibility)
      + b.responsibility / (b.responsibility + a.responsibility) = 1
  field_simp
  ring

/-- Witness for C9 at two default agents (responsibility 0.5 each). -/
theorem responsibility_partition_witness :
    0 < (Agent3D.new 0 0 (Collider.new_sphere 1)).responsibility ∧
    0 < (Agent3D.new ⟨10, 0, 0⟩ 0 (Collider.new_sphere 1)).responsibility ∧
    ((VelocityObstacle3D.new (Agent3D.new 0 0 (Collider.new_sphere 1))
        (Agent3D.new ⟨10, 0, 0⟩ 0 (Collider.new_sphere 1)) 5).responsibility
      + (VelocityObstacle3D.new (Agent3D.new ⟨10, 0, 0⟩ 0 (Collider.new_sphere 1))
        (Agent3D.new 0 0 (Collider.new_sphere 1)) 5).responsibility = 1 ∧
    (VelocityObstacle3D.new (Agent3D.new 0 0 (Collider.new_sphere 1))
        (Agent3D.new ⟨10, 0, 0⟩ 0 (Collider.new_sphere 1)) 5).responsibility
      = (Agent3D.new 0 0 (Collider.new_sphere 1)).responsibility
        / ((Agent3D.new 0 0 (Collider.new_sphere 1)).responsibility
          + (Agent3D.new ⟨10, 0, 0⟩ 0 (Collider.new_sphere 1)).responsibility) ∧
    (VelocityObstacle3D.new (Agent3D.new ⟨10, 0, 0⟩ 0 (Collider.new_sphere 1))
        (Agent3D.new 0 0 (Collider.new_sphere 1)) 5).responsibility
      = (Agent3D.new ⟨10, 0, 0⟩ 0 (Collider.new_sphere 1)).responsibility
        / ((Agent3D.new ⟨10, 0, 0⟩ 0 (Collider.new_sphere 1)).responsibility
          + (Agent3D.new 0 0 (Collider.new_sphere 1)).responsibility)) :=
  ⟨by norm_num [Agent3D.new], by norm_num [Agent3D.new],
    responsibility_partition _ _ 5 (by norm_num [Agent3D.new]) (by norm_num [Agent3D.new])⟩

/-! ### Claim C7: collider operation totality -/

/-- C7 counterexample: the claim says every Collider variant supports every
listed shape operation totally, but the Aabb arms of extend_cone and
get_secant_plane are unimplemented todo!() calls that abort. -/
theorem collider_aabb_cone_secant_abort :
    Collider.extend_cone (Collider.new_aabb 0 ⟨1, 1, 1⟩) ⟨1, 0, 0⟩ = none ∧
    Collider.get_secant_plane (Collider.new_aabb 0 ⟨1, 1, 1⟩) ⟨2, 0, 0⟩ = none :=
  ⟨rfl, rfl⟩

/-- C7 (amended): minkowski_sum, scale, bounding_sphere and the point queries
are total for both variants by case dispatch, while extend_cone and
get_secant_plane succeed exactly on the Sphere variant. -/
theorem collider_ops_totality (c other : Collider) (k : ℝ) (v pt : Vec3) :
    ((c.extend_cone v).isSome ↔ ∃ s, c = .sphere s) ∧
    ((c.get_secant_plane pt).isSome ↔ ∃ s, c = .sphere s) ∧
    (∃ r, c.minkowski_sum other = r) ∧ (∃ r, c.scale k = r) ∧
    (∃ r, c.bounding_sphere = r) ∧ (∃ r, c.constrain pt = r) ∧
    (∃ r, c.closest_point_and_normal pt = r) ∧ (∃ r, c.signed_distance pt = r) := by
  refine ⟨?_, ?_, ⟨_, rfl⟩, ⟨_, rfl⟩, ⟨_, rfl⟩, ⟨_, rfl⟩, ⟨_, rfl⟩, ⟨_, rfl⟩⟩
  · cases c with
    | sphere s => simp [Collider.extend_cone]
    | aabb b => simp [Collider.extend_cone]
  · cases c with
    | sphere s => simp [Collider.get_secant_plane]
    | aabb b => simp [Collider.get_secant_plane]

/-! ### Claim C5: epsilon interval collapse -/

/-- C5: in the 2D solver interval epilogue, bounds within EPSILON of each other
are collapsed to their common average and cannot yield Infeasible; the
interval-inversion Infeasible fires exactly when the interval is inverted by
at least EPSILON. -/
theorem interval_collapse_no_spurious_infeasible (point direction opt : Vec2) (m M : ℝ) :
    (|m - M| < EPSILON →
      finalizeInterval point direction opt m M
        = some ((LineSegment2D.mk point direction ((m + M) / 2) ((m + M) / 2)).constrain opt)) ∧
    (finalizeInterval point direction opt m M = none ↔ EPSILON ≤ m - M) := by
  constructor
  · intro h
    simp only [finalizeInterval, collapseBounds, if_pos h]
    rw [if_neg (by norm_num)]
  · by_cases h : |m - M| < EPSILON
    · simp only [finalizeInterval, collapseBounds, if_pos h]
      rw [if_neg (by norm_num)]
      constructor
      · intro hc; exact absurd hc (by simp)
      · intro hc
        have := abs_lt.mp h
        linarith
    · simp only [finalizeInterval, collapseBounds, if_neg h]
      push_neg at h
      rcases le_or_lt m M with hle | hlt
      · rw [if_neg (by exact not_lt.mpr hle)]
        have heps : (0 : ℝ) < EPSILON := by rw [EPSILON]; norm_num
        constructor
        · intro hc; exact absurd hc (by simp)
        · intro hc; linarith
      · rw [if_pos hlt]
        have : |m - M| = m - M := abs_of_pos (by linarith)
        constructor
        · intro _; rw [← this]; exact h
        · intro _; rfl

/-- Witness for C5 at a concrete within-epsilon pair of bounds. -/
theorem interval_collapse_witness :
    (|(0 : ℝ) - 1 / 100000| < EPSILON) ∧
    (finalizeInterval 0 ⟨1, 0⟩ 0 0 (1 / 100000)
      = some ((LineSegment2D.mk 0 ⟨1, 0⟩ ((0 + 1 / 100000) / 2)
          ((0 + 1 / 100000) / 2)).constrain 0)) :=
  ⟨by rw [EPSILON]; norm_num [abs_lt],
    (interval_collapse_no_spurious_infeasible 0 ⟨1, 0⟩ 0 0 (1 / 100000)).1
      (by rw [EPSILON]; norm_num [abs_lt])⟩

/-! ### Structure-level vector evaluation lemmas -/

@[simp] theorem Vec2.mk_add2 (a b c d : ℝ) :
    Vec2.mk a b + Vec2.mk c d = ⟨a + c, b + d⟩ := rfl

@[simp] theorem Vec2.mk_sub2 (a b c d : ℝ) :
    Vec2.mk a b - Vec2.mk c d = ⟨a - c, b - d⟩ := rfl

@[simp] theorem Vec2.mk_smul2 (r a b : ℝ) : r • Vec2.mk a b = ⟨r * a, r * b⟩ := rfl

@[simp] theorem Vec3.mk_add3 (a b c d e f : ℝ) :
    Vec3.mk a b c + Vec3.mk d e f = ⟨a + d, b + e, c + f⟩ := rfl

@[simp] theorem Vec3.mk_sub3 (a b c d e f : ℝ) :
    Vec3.mk a b c - Vec3.mk d e f = ⟨a - d, b - e, c - f⟩ := rfl

@[simp] theorem Vec3.mk_smul3 (r a b c : ℝ) : r • Vec3.mk a b c = ⟨r * a, r * b, r * c⟩ := rfl

@[simp] theorem Vec4.mk_add4 (a b c d e f g h : ℝ) :
    Vec4.mk a b c d + Vec4.mk e f g h = ⟨a + e, b + f, c + g, d + h⟩ := rfl

@[simp] theorem Vec4.mk_sub4 (a b c d e f g h : ℝ) :
    Vec4.mk a b c d - Vec4.mk e f g h = ⟨a - e, b - f, c - g, d - h⟩ := rfl

@[simp] theorem Vec4.mk_smul4 (r a b c d : ℝ) :
    r • Vec4.mk a b c d = ⟨r * a, r * b, r * c, r * d⟩ := rfl

theorem Vec2.zero_def2 : (0 : Vec2) = Vec2.mk 0 0 := rfl

theorem Vec3.zero_def3 : (0 : Vec3) = Vec3.mk 0 0 0 := rfl

theorem Vec4.zero_def4 : (0 : Vec4) = Vec4.mk 0 0 0 0 := rfl

/-! ### Claim C1: the 3D to 4D fallback cascade -/

/-- C1: optimize_velocity_3d always returns a velocity vector; when the 3D
solve is feasible it returns its optimum, and when the 3D solve is infeasible
it rebuilds every plane as a 4D hyperplane (origin w = 0, normal slack 0.2),
solves in 4D inside a spherinder of radius the maximum speed with the
preferred velocity's fourth coordinate set to -1000, and truncates the 4D
outcome (feasible optimum, or the carried partial answer) to 3D. -/
theorem optimize_velocity_cascade (pref : Vec3) (m : ℝ) (planes : List Plane) :
    (∀ v, incremental_optimization_3d pref (Sphere.new m 0).toShape3D planes
        = .feasible v → optimize_velocity_3d pref m planes = v) ∧
    (∀ lv, incremental_optimization_3d pref (Sphere.new m 0).toShape3D planes
        = .infeasible lv →
      optimize_velocity_3d pref m planes =
        (match incremental_optimization_4d ⟨pref.x, pref.y, pref.z, -1000⟩
            (Spherinder.new 0 m).toShape4D
            (planes.map (fun p => Hyperplane.new ⟨p.origin.x, p.origin.y, p.origin.z, 0⟩
              ⟨p.normal.x, p.normal.y, p.normal.z, 0.2⟩)) with
          | .feasible v => v.truncate
          | .infeasible lv4 => lv4.truncate)) := by
  constructor
  · intro v h
    unfold optimize_velocity_3d
    rw [h]
  · intro lv h
    unfold optimize_velocity_3d
    rw [h]
    rfl

/-! ### Length and distance lemmas for the shape queries -/

theorem Vec3.lengthSq_smul3 (c : ℝ) (v : Vec3) : (c • v).lengthSq = c ^ 2 * v.lengthSq := by
  simp only [Vec3.lengthSq, Vec3.dot_smul_left3, Vec3.dot_smul_right3]
  ring

theorem Vec3.length_smul (c : ℝ) (v : Vec3) : (c • v).length = |c| * v.length := by
  rw [Vec3.length, Vec3.lengthSq_smul3, Real.sqrt_mul (sq_nonneg c), Real.sqrt_sq_eq_abs]
  rfl

theorem Vec3.length_zero : (0 : Vec3).length = 0 := by
  simp [Vec3.length, Vec3.lengthSq, Vec3.dot, Vec3.zero_def3]

theorem Vec3.length_neg (v : Vec3) : (-v).length = v.length := by
  have : -v = (-1 : ℝ) • v := by ext <;> simp
  rw [this, Vec3.length_smul]
  norm_num

theorem Vec3.dot_le_mul_length (a b : Vec3) : a.dot b ≤ a.length * b.length := by
  nlinarith [Vec3.cauchy_schwarz a b, Vec3.sq_length3 a, Vec3.sq_length3 b,
    Vec3.length_nonneg3 a, Vec3.length_nonneg3 b,
    mul_nonneg (Vec3.length_nonneg3 a) (Vec3.length_nonneg3 b)]

theorem Vec3.length_sub_ge (a b : Vec3) : a.length - b.length ≤ (a - b).length := by
  have h1 : (a - b).lengthSq = a.lengthSq - 2 * a.dot b + b.lengthSq := by
    simp only [Vec3.lengthSq, Vec3.dot_sub_left3, Vec3.dot_sub_right3]
    rw [Vec3.dot_comm3 b a]
    ring
  nlinarith [Vec3.sq_length3 (a - b), Vec3.sq_length3 a, Vec3.sq_length3 b,
    Vec3.length_nonneg3 (a - b), Vec3.length_nonneg3 a, Vec3.length_nonneg3 b,
    Vec3.dot_le_mul_length a b]

theorem Vec3.length_le_of_lengthSq_le {a b : Vec3} (h : a.lengthSq ≤ b.lengthSq) :
    a.length ≤ b.length := Real.sqrt_le_sqrt h

theorem Vec3.length_le_of_contained {v : Vec3} {r : ℝ} (hr : 0 ≤ r)
    (h : v.lengthSq ≤ r * r) : v.length ≤ r := by
  nlinarith [Vec3.sq_length3 v, Vec3.length_nonneg3 v]

/-! ### Clamp lemmas -/

theorem rclamp_le {v lo hi : ℝ} (h : lo ≤ hi) : rclamp v lo hi ≤ hi := by
  rw [rclamp]
  rcases le_total v hi with hv | hv
  · exact max_le h (min_le_left _ _)
  · exact max_le h (min_le_left _ _)

theorem rclamp_ge (v lo hi : ℝ) : lo ≤ rclamp v lo hi := le_max_left _ _

theorem rclamp_id {v lo hi : ℝ} (h1 : lo ≤ v) (h2 : v ≤ hi) : rclamp v lo hi = v := by
  rw [rclamp, min_eq_right h2, max_eq_right h1]

theorem rclamp_nearest_sq {v lo hi y : ℝ} (hy1 : lo ≤ y) (hy2 : y ≤ hi) :
    (v - rclamp v lo hi) ^ 2 ≤ (v - y) ^ 2 := by
  rcases lt_or_le v lo with hv | hv
  · have hvhi : v ≤ hi := le_of_lt (lt_of_lt_of_le hv (le_trans hy1 hy2))
    rw [rclamp, min_eq_right hvhi, max_eq_left (le_of_lt hv)]
    nlinarith
  · rcases le_or_lt v hi with hv2 | hv2
    · rw [rclamp_id hv hv2]
      nlinarith [sq_nonneg (v - y)]
    · rw [rclamp, min_eq_left (le_of_lt hv2), max_eq_right (le_trans hy1 hy2)]
      nlinarith

/-! ### Claim C8: constrain and closest point queries -/

/-- Sphere projection: outside the sphere, the renormalised point is on the
sphere and is the nearest inside-or-on point. -/
theorem sphere_proj_spec (s : Sphere) (pt : Vec3) (hr : 0 ≤ s.radius)
    (hout : ¬ s.contains pt) :
    s.contains (s.origin + s.radius • (pt - s.origin).normalize) ∧
    (∀ y, s.contains y →
      (s.origin + s.radius • (pt - s.origin).normalize).distance pt ≤ y.distance pt) := by
  set rel := pt - s.origin with hrel
  have hlsq : rel.lengthSq > s.radius * s.radius := by
    simpa [Sphere.contains, not_le] using hout
  have hLr : s.radius < rel.length := by
    nlinarith [Vec3.sq_length3 rel, Vec3.length_nonneg3 rel]
  have hL0 : 0 < rel.length := lt_of_le_of_lt hr hLr
  have hproj : s.origin + s.radius • rel.normalize - s.origin
      = (s.radius / rel.length) • rel := by
    rw [Vec3.normalize]
    ext <;> simp <;> ring
  have hlsq0 : rel.lengthSq ≠ 0 := ne_of_gt (lt_of_le_of_lt (mul_self_nonneg _) hlsq)
  have hprojSq : (s.origin + s.radius • rel.normalize - s.origin).lengthSq
      = s.radius * s.radius := by
    rw [hproj, Vec3.lengthSq_smul3]
    rw [div_pow]
    rw [show rel.length ^ 2 = rel.lengthSq by rw [sq]; exact rel.sq_length3]
    field_simp [hlsq0]
    ring
  constructor
  · rw [Sphere.contains, hprojSq]
  · intro y hyc
    have hyb : (y - s.origin).length ≤ s.radius :=
      Vec3.length_le_of_contained hr (by simpa [Sphere.contains] using hyc)
    have hd1 : (s.origin + s.radius • rel.normalize).distance pt = rel.length - s.radius := by
      rw [Vec3.distance]
      have : s.origin + s.radius • rel.normalize - pt = (s.radius / rel.length - 1) • rel := by
        rw [Vec3.normalize]
        ext <;> simp [hrel] <;> ring
      rw [this, Vec3.length_smul, abs_of_nonpos (by
        rw [div_sub_one (ne_of_gt hL0)]
        exact div_nonpos_of_nonpos_of_nonneg (by linarith) (le_of_lt hL0))]
      rw [div_sub_one (ne_of_gt hL0)]
      field_simp
    have hd2 : rel.length - s.radius ≤ y.distance pt := by
      have h3 : y.distance pt = (rel - (y - s.origin)).length := by
        rw [Vec3.distance, ← Vec3.length_neg]
        congr 1
        ext <;> simp [hrel] <;> ring
      have h4 := Vec3.length_sub_ge rel (y - s.origin)
      rw [h3]
      linarith
    rw [hd1]
    exact hd2

/-- C8 counterexample: Aabb::closest_point_and_normal only ever inspects the
four y and z faces, so for a query point far outside along the x axis it
returns a point that is not inside-or-on the box at all, refuting the
closest-point clause of the claim for the Aabb variant. -/
theorem aabb_closest_point_not_on_shape :
    ¬ (Aabb.new 0 ⟨1, 1, 1⟩).contains
      ((Aabb.new 0 ⟨1, 1, 1⟩).closest_point_and_normal ⟨100, 0, 0⟩).1 := by
  norm_num [Aabb.new, Aabb.contains, Aabb.closest_point_and_normal, Vec3.zero_def3]

/-- C8 (amended): for nonnegative radius and half sizes, constrain returns the
nearest inside-or-on point and is the identity on contained points, for both
Sphere and Aabb; and Sphere::closest_point_and_normal returns a nearest
inside-or-on point.  The corresponding closest-point clause for Aabb is
dropped: that implementation projects onto the nearest y or z face only. -/
theorem constrain_closest_point_spec (s : Sphere) (b : Aabb) (pt : Vec3)
    (hr : 0 ≤ s.radius) (hbx : 0 ≤ b.half_sizes.x) (hby : 0 ≤ b.half_sizes.y)
    (hbz : 0 ≤ b.half_sizes.z) :
    (s.contains pt → s.constrain pt = pt) ∧ s.contains (s.constrain pt) ∧
    (∀ y, s.contains y → (s.constrain pt).distance pt ≤ y.distance pt) ∧
    (b.contains pt → b.constrain pt = pt) ∧ b.contains (b.constrain pt) ∧
    (∀ y, b.contains y → (b.constrain pt).distance pt ≤ y.distance pt) ∧
    s.contains (s.closest_point_and_normal pt).1 ∧
    (∀ y, s.contains y → (s.closest_point_and_normal pt).1.distance pt ≤ y.distance pt) := by
  have hdist0 : ∀ q : Vec3, q.distance q = 0 := by
    intro q
    rw [Vec3.distance, sub_self, Vec3.length_zero]
  have hdistnn : ∀ q q2 : Vec3, 0 ≤ q.distance q2 := fun q q2 => Vec3.length_nonneg3 _
  have sphere_parts : (s.contains pt → s.constrain pt = pt) ∧ s.contains (s.constrain pt) ∧
      (∀ y, s.contains y → (s.constrain pt).distance pt ≤ y.distance pt) := by
    by_cases hin : s.contains pt
    · have hin2 : (pt - s.origin).lengthSq ≤ s.radius * s.radius := hin
      have hid : s.constrain pt = pt := by rw [Sphere.constrain, if_pos hin2]
      exact ⟨fun _ => hid, by rw [hid]; exact hin,
        fun y hyc => by rw [hid, hdist0]; exact hdistnn y pt⟩
    · have hin2 : ¬ (pt - s.origin).lengthSq ≤ s.radius * s.radius := hin
      have hc : s.constrain pt = s.origin + s.radius • (pt - s.origin).normalize := by
        rw [Sphere.constrain, if_neg hin2]
      obtain ⟨h1, h2⟩ := sphere_proj_spec s pt hr hin
      exact ⟨fun h => absurd h hin, by rw [hc]; exact h1, fun y hyc => by rw [hc]; exact h2 y hyc⟩
  have cpn_parts : s.contains (s.closest_point_and_normal pt).1 ∧
      (∀ y, s.contains y → (s.closest_point_and_normal pt).1.distance pt ≤ y.distance pt) := by
    by_cases hin : s.contains pt
    · have hin2 : (pt - s.origin).lengthSq ≤ s.radius * s.radius := hin
      have hid : (s.closest_point_and_normal pt).1 = pt := by
        rw [Sphere.closest_point_and_normal, if_pos hin2]
      exact ⟨by rw [hid]; exact hin, fun y hyc => by rw [hid, hdist0]; exact hdistnn y pt⟩
    · have hin2 : ¬ (pt - s.origin).lengthSq ≤ s.radius * s.radius := hin
      have hc : (s.closest_point_and_normal pt).1
          = s.origin + s.radius • (pt - s.origin).normalize := by
        rw [Sphere.closest_point_and_normal, if_neg hin2]
      obtain ⟨h1, h2⟩ := sphere_proj_spec s pt hr hin
      exact ⟨by rw [hc]; exact h1, fun y hyc => by rw [hc]; exact h2 y hyc⟩
  have aabb_id : b.contains pt → b.constrain pt = pt := by
    intro h
    obtain ⟨h1, h2, h3, h4, h5, h6⟩ := h
    rw [Aabb.constrain]
    ext
    · exact rclamp_id h1 h2
    · exact rclamp_id h3 h4
    · exact rclamp_id h5 h6
  have aabb_mem : b.contains (b.constrain pt) := by
    rw [Aabb.constrain, Aabb.contains]
    refine ⟨rclamp_ge _ _ _, rclamp_le (by simp; linarith), rclamp_ge _ _ _,
      rclamp_le (by simp; linarith), rclamp_ge _ _ _, rclamp_le (by simp; linarith)⟩
  have aabb_min : ∀ y, b.contains y → (b.constrain pt).distance pt ≤ y.distance pt := by
    intro y hyc
    obtain ⟨h1, h2, h3, h4, h5, h6⟩ := hyc
    apply Vec3.length_le_of_lengthSq_le
    simp only [Vec3.lengthSq, Vec3.dot, Aabb.constrain, Vec3.sub_x3, Vec3.sub_y3, Vec3.sub_z3,
      Vec3.add_x3, Vec3.add_y3, Vec3.add_z3]
    have e1 := rclamp_nearest_sq (v := pt.x) h1 h2
    have e2 := rclamp_nearest_sq (v := pt.y) h3 h4
    have e3 := rclamp_nearest_sq (v := pt.z) h5 h6
    simp only [Vec3.sub_x3, Vec3.sub_y3, Vec3.sub_z3, Vec3.add_x3, Vec3.add_y3, Vec3.add_z3]
      at e1 e2 e3
    nlinarith [e1, e2, e3]
  exact ⟨sphere_parts.1, sphere_parts.2.1, sphere_parts.2.2, aabb_id, aabb_mem, aabb_min,
    cpn_parts.1, cpn_parts.2⟩

/-- Witness for C8 at a concrete sphere, box and outside query point. -/
theorem constrain_closest_point_spec_witness :
    (0 : ℝ) ≤ (Sphere.new 2 0).radius ∧ (0 : ℝ) ≤ (Aabb.new 0 ⟨1, 1, 1⟩).half_sizes.x ∧
    ((Sphere.new 2 0).contains ((Sphere.new 2 0).constrain ⟨3, 0, 0⟩) ∧
      (Aabb.new 0 ⟨1, 1, 1⟩).contains ((Aabb.new 0 ⟨1, 1, 1⟩).constrain ⟨3, 0, 0⟩)) := by
  have h := constrain_closest_point_spec (Sphere.new 2 0) (Aabb.new 0 ⟨1, 1, 1⟩) ⟨3, 0, 0⟩
    (by norm_num [Sphere.new]) (by norm_num [Aabb.new]) (by norm_num [Aabb.new])
    (by norm_num [Aabb.new])
  exact ⟨by norm_num [Sphere.new], by norm_num [Aabb.new], h.2.1, h.2.2.2.2.1⟩

/-! ### Claim C3: infeasible results return at the first contradiction -/

theorem go2d_infeasible_split (shape : Shape2D) :
    ∀ (l prev : List HalfPlane) (opt lv : Vec2),
      go2d shape prev opt l = .infeasible lv →
      ∃ pre bad rest, l = pre ++ bad :: rest ∧
        go2d shape prev opt pre = .feasible lv ∧
        ∀ rest2, go2d shape prev opt (pre ++ bad :: rest2) = .infeasible lv := by
  intro l
  induction l with
  | nil =>
    intro prev opt lv h
    exact absurd h (by simp [go2d])
  | cons hp rest ih =>
    intro prev opt lv h
    simp only [go2d] at h
    by_cases hc : hp.contains opt
    · rw [if_pos hc] at h
      obtain ⟨pre, bad, rest2, hsplit, hfeas, hall⟩ := ih (prev ++ [hp]) opt lv h
      refine ⟨hp :: pre, bad, rest2, by simp [hsplit], ?_, ?_⟩
      · simp only [go2d, if_pos hc]
        exact hfeas
      · intro r2
        rw [List.cons_append]
        simp only [go2d, if_pos hc]
        exact hall r2
    · rw [if_neg hc] at h
      cases hstep : step2d shape prev hp opt with
      | some opt2 =>
        simp only [hstep] at h
        obtain ⟨pre, bad, rest2, hsplit, hfeas, hall⟩ := ih (prev ++ [hp]) opt2 lv h
        refine ⟨hp :: pre, bad, rest2, by simp [hsplit], ?_, ?_⟩
        · simp only [go2d, if_neg hc, hstep]
          exact hfeas
        · intro r2
          rw [List.cons_append]
          simp only [go2d, if_neg hc, hstep]
          exact hall r2
      | none =>
        simp only [hstep] at h
        have hlv : opt = lv := by cases h; rfl
        subst hlv
        refine ⟨[], hp, rest, rfl, by simp only [go2d], ?_⟩
        intro r2
        rw [List.nil_append]
        simp only [go2d, if_neg hc, hstep]

theorem go3d_infeasible_split (shape : Shape3D) :
    ∀ (l prev : List Plane) (opt lv : Vec3),
      go3d shape prev opt l = .infeasible lv →
      ∃ pre bad rest, l = pre ++ bad :: rest ∧
        go3d shape prev opt pre = .feasible lv ∧
        ∀ rest2, go3d shape prev opt (pre ++ bad :: rest2) = .infeasible lv := by
  intro l
  induction l with
  | nil =>
    intro prev opt lv h
    exact absurd h (by simp [go3d])
  | cons hp rest ih =>
    intro prev opt lv h
    simp only [go3d] at h
    by_cases hc : hp.contains opt
    · rw [if_pos hc] at h
      obtain ⟨pre, bad, rest2, hsplit, hfeas, hall⟩ := ih (prev ++ [hp]) opt lv h
      refine ⟨hp :: pre, bad, rest2, by simp [hsplit], ?_, ?_⟩
      · simp only [go3d, if_pos hc]
        exact hfeas
      · intro r2
        rw [List.cons_append]
        simp only [go3d, if_pos hc]
        exact hall r2
    · rw [if_neg hc] at h
      cases hstep : step3d shape prev hp opt with
      | some opt2 =>
        simp only [hstep] at h
        obtain ⟨pre, bad, rest2, hsplit, hfeas, hall⟩ := ih (prev ++ [hp]) opt2 lv h
        refine ⟨hp :: pre, bad, rest2, by simp [hsplit], ?_, ?_⟩
        · simp only [go3d, if_neg hc, hstep]
          exact hfeas
        · intro r2
          rw [List.cons_append]
          simp only [go3d, if_neg hc, hstep]
          exact hall r2
      | none =>
        simp only [hstep] at h
        have hlv : opt = lv := by cases h; rfl
        subst hlv
        refine ⟨[], hp, rest, rfl, by simp only [go3d], ?_⟩
        intro r2
        rw [List.nil_append]
        simp only [go3d, if_neg hc, hstep]

theorem go4d_infeasible_split (shape : Shape4D) :
    ∀ (l prev : List Hyperplane) (opt lv : Vec4),
      go4d shape prev opt l = .infeasible lv →
      ∃ pre bad rest, l = pre ++ bad :: rest ∧
        go4d shape prev opt pre = .feasible lv ∧
        ∀ rest2, go4d shape prev opt (pre ++ bad :: rest2) = .infeasible lv := by
  intro l
  induction l with
  | nil =>
    intro prev opt lv h
    exact absurd h (by simp [go4d])
  | cons hp rest ih =>
    intro prev opt lv h
    simp only [go4d] at h
    by_cases hc : hp.contains opt
    · rw [if_pos hc] at h
      obtain ⟨pre, bad, rest2, hsplit, hfeas, hall⟩ := ih (prev ++ [hp]) opt lv h
      refine ⟨hp :: pre, bad, rest2, by simp [hsplit], ?_, ?_⟩
      · simp only [go4d, if_pos hc]
        exact hfeas
      · intro r2
        rw [List.cons_append]
        simp only [go4d, if_pos hc]
        exact hall r2
    · rw [if_neg hc] at h
      cases hstep : step4d shape prev hp opt with
      | some opt2 =>
        simp only [hstep] at h
        obtain ⟨pre, bad, rest2, hsplit, hfeas, hall⟩ := ih (prev ++ [hp]) opt2 lv h
        refine ⟨hp :: pre, bad, rest2, by simp [hsplit], ?_, ?_⟩
        · simp only [go4d, if_neg hc, hstep]
          exact hfeas
        · intro r2
          rw [List.cons_append]
          simp only [go4d, if_neg hc, hstep]
          exact hall r2
      | none =>
        simp only [hstep] at h
        have hlv : opt = lv := by cases h; rfl
        subst hlv
        refine ⟨[], hp, rest, rfl, by simp only [go4d], ?_⟩
        intro r2
        rw [List.nil_append]
        simp only [go4d, if_neg hc, hstep]

/-- C3: whenever a solver of the cascade returns Infeasible, the constraint
list splits as processed-prefix / failing-constraint / untouched-tail: the
solver succeeds on the prefix with exactly the carried velocity (so the
carried vector is the optimum after folding in the constraints processed so
far, the constrained preferred velocity when the prefix is empty), and the
result does not depend on anything after the failing constraint. -/
theorem infeasible_first_contradiction :
    (∀ (shape : Shape2D) (pref : Vec2) (hps : List HalfPlane) (lv : Vec2),
      incremental_optimization_2d pref shape hps = .infeasible lv →
      ∃ pre bad rest, hps = pre ++ bad :: rest ∧
        incremental_optimization_2d pref shape pre = .feasible lv ∧
        ∀ rest2, incremental_optimization_2d pref shape (pre ++ bad :: rest2)
          = .infeasible lv) ∧
    (∀ (shape : Shape2D) (pref : Vec2),
      incremental_optimization_2d pref shape [] = .feasible (shape.constrain pref)) ∧
    (∀ (shape : Shape3D) (pref : Vec3) (planes : List Plane) (lv : Vec3),
      incremental_optimization_3d pref shape planes = .infeasible lv →
      ∃ pre bad rest, planes = pre ++ bad :: rest ∧
        incremental_optimization_3d pref shape pre = .feasible lv ∧
        ∀ rest2, incremental_optimization_3d pref shape (pre ++ bad :: rest2)
          = .infeasible lv) ∧
    (∀ (shape : Shape3D) (pref : Vec3),
      incremental_optimization_3d pref shape [] = .feasible (shape.constrain pref)) ∧
    (∀ (shape : Shape4D) (pref : Vec4) (hps : List Hyperplane) (lv : Vec4),
      incremental_optimization_4d pref shape hps = .infeasible lv →
      ∃ pre bad rest, hps = pre ++ bad :: rest ∧
        incremental_optimization_4d pref shape pre = .feasible lv ∧
        ∀ rest2, incremental_optimization_4d pref shape (pre ++ bad :: rest2)
          = .infeasible lv) ∧
    (∀ (shape : Shape4D) (pref : Vec4),
      incremental_optimization_4d pref shape [] = .feasible (shape.constrain pref)) := by
  refine ⟨?_, fun shape pref => rfl, ?_, fun shape pref => rfl, ?_, fun shape pref => rfl⟩
  · intro shape pref hps lv h
    exact go2d_infeasible_split shape hps [] (shape.constrain pref) lv h
  · intro shape pref planes lv h
    exact go3d_infeasible_split shape planes [] (shape.constrain pref) lv h
  · intro shape pref hps lv h
    exact go4d_infeasible_split shape hps [] (shape.constrain pref) lv h

/-- A simple test bounding shape for the 2D solver: identity constrain, fixed
parameter bounds on every line. -/
def testShape2D : Shape2D := ⟨fun v => v, fun _ _ => some (-1, 1)⟩

/-- A test bounding shape for the 3D solver whose plane projection is empty. -/
def testShape3D : Shape3D := ⟨fun v => v, fun _ => none⟩

/-- A test bounding shape for the 4D solver whose hyperplane projection is
empty. -/
def testShape4D : Shape4D := ⟨fun v => v, fun _ => none⟩

/-- Evaluation helper: two opposing half planes are infeasible in 2D; the
solver stops at the second one carrying the optimum reached on the first. -/
theorem solver2d_opposing_infeasible :
    incremental_optimization_2d ⟨0, 0⟩ testShape2D
      [⟨⟨0, 1⟩, ⟨0, 1⟩⟩, ⟨⟨0, -1⟩, ⟨0, -1⟩⟩] = .infeasible ⟨0, 1⟩ := by
  norm_num [incremental_optimization_2d, go2d, step2d, shrinkBounds, finalizeInterval,
    collapseBounds, testShape2D, HalfPlane.contains, HalfPlane.signed_distance,
    Vec2.perp, Vec2.dot, Ray2D.intersect, LineSegment2D.constrain, rclamp, EPSILON,
    Vec2.zero_def2]

/-- Evaluation helper: a plane whose projection misses the bounding shape is
infeasible in 3D with the initial optimum carried. -/
theorem solver3d_projection_infeasible :
    incremental_optimization_3d ⟨0, 0, 0⟩ testShape3D
      [⟨⟨0, 0, 1⟩, ⟨0, 0, 5⟩, ⟨-1, 0, 0⟩, ⟨0, -1, 0⟩⟩] = .infeasible ⟨0, 0, 0⟩ := by
  norm_num [incremental_optimization_3d, go3d, step3d, testShape3D, Plane.contains,
    Plane.signed_distance, Vec3.dot, EPSILON, Vec3.zero_def3]

/-- Evaluation helper: a hyperplane whose projection misses the bounding shape
is infeasible in 4D with the initial optimum carried. -/
theorem solver4d_projection_infeasible :
    incremental_optimization_4d ⟨0, 0, 0, 0⟩ testShape4D
      [⟨⟨0, 0, 0, 1⟩, ⟨0, 0, 0, 5⟩, ⟨1, 0, 0, 0⟩, ⟨0, 1, 0, 0⟩, ⟨0, 0, 1, 0⟩⟩]
      = .infeasible ⟨0, 0, 0, 0⟩ := by
  norm_num [incremental_optimization_4d, go4d, step4d, testShape4D, Hyperplane.contains,
    Vec4.dot, EPSILON, Vec4.zero_def4]

/-- Witness for C3: concrete infeasible runs in 2D, 3D and 4D, each split by
the theorem into processed prefix, failing constraint and irrelevant tail. -/
theorem infeasible_first_contradiction_witness :
    (incremental_optimization_2d ⟨0, 0⟩ testShape2D
        [⟨⟨0, 1⟩, ⟨0, 1⟩⟩, ⟨⟨0, -1⟩, ⟨0, -1⟩⟩] = .infeasible ⟨0, 1⟩ ∧
      ∃ pre bad rest,
        [(⟨⟨0, 1⟩, ⟨0, 1⟩⟩ : HalfPlane), ⟨⟨0, -1⟩, ⟨0, -1⟩⟩] = pre ++ bad :: rest ∧
        incremental_optimization_2d ⟨0, 0⟩ testShape2D pre = .feasible ⟨0, 1⟩ ∧
        ∀ rest2, incremental_optimization_2d ⟨0, 0⟩ testShape2D (pre ++ bad :: rest2)
          = .infeasible ⟨0, 1⟩) ∧
    (incremental_optimization_3d ⟨0, 0, 0⟩ testShape3D
        [⟨⟨0, 0, 1⟩, ⟨0, 0, 5⟩, ⟨-1, 0, 0⟩, ⟨0, -1, 0⟩⟩] = .infeasible ⟨0, 0, 0⟩ ∧
      ∃ pre bad rest,
        [(⟨⟨0, 0, 1⟩, ⟨0, 0, 5⟩, ⟨-1, 0, 0⟩, ⟨0, -1, 0⟩⟩ : Plane)] = pre ++ bad :: rest ∧
        incremental_optimization_3d ⟨0, 0, 0⟩ testShape3D pre = .feasible ⟨0, 0, 0⟩ ∧
        ∀ rest2, incremental_optimization_3d ⟨0, 0, 0⟩ testShape3D (pre ++ bad :: rest2)
          = .infeasible ⟨0, 0, 0⟩) ∧
    (incremental_optimization_4d ⟨0, 0, 0, 0⟩ testShape4D
        [⟨⟨0, 0, 0, 1⟩, ⟨0, 0, 0, 5⟩, ⟨1, 0, 0, 0⟩, ⟨0, 1, 0, 0⟩, ⟨0, 0, 1, 0⟩⟩]
        = .infeasible ⟨0, 0, 0, 0⟩ ∧
      ∃ pre bad rest,
        [(⟨⟨0, 0, 0, 1⟩, ⟨0, 0, 0, 5⟩, ⟨1, 0, 0, 0⟩, ⟨0, 1, 0, 0⟩,
            ⟨0, 0, 1, 0⟩⟩ : Hyperplane)] = pre ++ bad :: rest ∧
        incremental_optimization_4d ⟨0, 0, 0, 0⟩ testShape4D pre = .feasible ⟨0, 0, 0, 0⟩ ∧
        ∀ rest2, incremental_optimization_4d ⟨0, 0, 0, 0⟩ testShape4D (pre ++ bad :: rest2)
          = .infeasible ⟨0, 0, 0, 0⟩) :=
  ⟨⟨solver2d_opposing_infeasible,
      infeasible_first_contradiction.1 testShape2D ⟨0, 0⟩ _ _ solver2d_opposing_infeasible⟩,
    ⟨solver3d_projection_infeasible,
      infeasible_first_contradiction.2.2.1 testShape3D ⟨0, 0, 0⟩ _ _
        solver3d_projection_infeasible⟩,
    ⟨solver4d_projection_infeasible,
      infeasible_first_contradiction.2.2.2.2.1 testShape4D ⟨0, 0, 0, 0⟩ _ _
        solver4d_projection_infeasible⟩⟩

/-! ### Claim C4: exactness of the derived lower-dimensional constraints -/

/-- Evaluation helper: the concrete hyperplane through the origin with normal
(3/5, 4/5, 0, 0) and its Gram-Schmidt frame. -/
theorem hyperplane_A_eval :
    Hyperplane.new ⟨0, 0, 0, 0⟩ ⟨3 / 5, 4 / 5, 0, 0⟩
      = ⟨⟨3 / 5, 4 / 5, 0, 0⟩, ⟨0, 0, 0, 0⟩, ⟨4 / 5, -(3 / 5), 0, 0⟩,
          ⟨0, 0, 1, 0⟩, ⟨0, 0, 0, 1⟩⟩ := by
  have h1625 : Real.sqrt (16 / 25) = 4 / 5 := sqrt_eval (by norm_num) (by norm_num)
  have habs1 : |(3 : ℝ) / 5| = 3 / 5 := abs_of_nonneg (by norm_num)
  have habs2 : |(4 : ℝ) / 5| = 4 / 5 := abs_of_nonneg (by norm_num)
  unfold Hyperplane.new
  norm_num [Vec4.normalize, Vec4.length, Vec4.lengthSq, Vec4.dot, h1625, habs1, habs2,
    abs_zero, abs_one]

/-- Evaluation helper: the concrete hyperplane x = 1 in 4-space. -/
theorem hyperplane_B_eval :
    Hyperplane.new ⟨1, 0, 0, 0⟩ ⟨1, 0, 0, 0⟩
      = ⟨⟨1, 0, 0, 0⟩, ⟨1, 0, 0, 0⟩, ⟨0, 1, 0, 0⟩, ⟨0, 0, 1, 0⟩, ⟨0, 0, 0, 1⟩⟩ := by
  unfold Hyperplane.new
  norm_num [Vec4.normalize, Vec4.length, Vec4.lengthSq, Vec4.dot, abs_zero, abs_one]

/-- C4 demonstration at the failing input: Plane::from_hyperplane_intersection
scales the derived normal to unit length but keeps the offset d_result
computed against the unnormalised tangential component, so the derived 3D
plane accepts a point whose lift violates the second hyperplane by 0.12, three
orders of magnitude beyond the 1e-4 tolerance.  (The 2D analogue
HalfPlane::from_plane_intersection does not have this defect; see the
correspondence lemma used for claim C2.) -/
theorem hyperplane_intersection_not_exact :
    Plane.from_hyperplane_intersection (Hyperplane.new ⟨0, 0, 0, 0⟩ ⟨3 / 5, 4 / 5, 0, 0⟩)
        (Hyperplane.new ⟨1, 0, 0, 0⟩ ⟨1, 0, 0, 0⟩)
      = some ⟨⟨1, 0, 0⟩, ⟨1, 0, 0⟩, ⟨0, -1, 0⟩, ⟨0, 0, -1⟩⟩ ∧
    Plane.contains ⟨⟨1, 0, 0⟩, ⟨1, 0, 0⟩, ⟨0, -1, 0⟩, ⟨0, 0, -1⟩⟩ ⟨11 / 10, 0, 0⟩ ∧
    ¬ (Hyperplane.new ⟨1, 0, 0, 0⟩ ⟨1, 0, 0, 0⟩).contains
        ((Hyperplane.new ⟨0, 0, 0, 0⟩ ⟨3 / 5, 4 / 5, 0, 0⟩).project_4d ⟨11 / 10, 0, 0⟩) := by
  have h1625 : Real.sqrt (16 / 25) = 4 / 5 := sqrt_eval (by norm_num) (by norm_num)
  refine ⟨?_, ?_, ?_⟩
  · rw [hyperplane_A_eval, hyperplane_B_eval]
    have habs2 : |(4 : ℝ) / 5| = 4 / 5 := abs_of_nonneg (by norm_num)
    unfold Plane.from_hyperplane_intersection Plane.new
    norm_num [Vec4.dot, Vec3.normalize, Vec3.length, Vec3.lengthSq, Vec3.dot, Vec3.cross,
      EPSILON, h1625, habs2, abs_zero, abs_one]
  · norm_num [Plane.contains, Plane.signed_distance, Vec3.dot, EPSILON]
  · rw [hyperplane_A_eval, hyperplane_B_eval]
    norm_num [Hyperplane.contains, Hyperplane.project_4d, Vec4.dot, EPSILON]

/-! ### Cross product identities and well-formed plane frames -/

theorem Vec3.cross_self (a : Vec3) : a.cross a = 0 := by
  ext <;> simp [Vec3.cross, Vec3.zero_def3] <;> ring

theorem Vec3.cross_anticomm (a b : Vec3) : a.cross b = -(b.cross a) := by
  ext <;> simp [Vec3.cross] <;> ring

theorem Vec3.cross_cross (a b c : Vec3) :
    a.cross (b.cross c) = a.dot c • b - a.dot b • c := by
  ext <;> simp [Vec3.cross, Vec3.dot] <;> ring

theorem Vec3.cross_add_right (a b c : Vec3) : a.cross (b + c) = a.cross b + a.cross c := by
  ext <;> simp [Vec3.cross] <;> ring

theorem Vec3.cross_smul_right (r : ℝ) (a b : Vec3) : a.cross (r • b) = r • a.cross b := by
  ext <;> simp [Vec3.cross] <;> ring

theorem Vec3.cross_sub_right (a b c : Vec3) : a.cross (b - c) = a.cross b - a.cross c := by
  ext <;> simp [Vec3.cross] <;> ring

theorem Vec3.lengthSq_cross (a b : Vec3) :
    (a.cross b).lengthSq = a.lengthSq * b.lengthSq - (a.dot b) ^ 2 := by
  simp [Vec3.lengthSq, Vec3.cross, Vec3.dot]
  ring

theorem Vec3.triple (a b c : Vec3) : a.dot (b.cross c) = c.dot (a.cross b) := by
  simp [Vec3.dot, Vec3.cross]
  ring

@[simp] theorem Vec3.dot_cross_self_right (a b : Vec3) : a.dot (b.cross a) = 0 := by
  simp [Vec3.dot, Vec3.cross]
  ring

@[simp] theorem Vec3.dot_cross_self_left (a b : Vec3) : a.dot (a.cross b) = 0 := by
  simp [Vec3.dot, Vec3.cross]
  ring

/-- Well-formedness of a Plane value, as established by Plane::new on
non-degenerate input: unit normal, unit in-plane u direction orthogonal to the
normal, and v completing the right-handed frame. -/
def Plane.WF (p : Plane) : Prop :=
  p.normal.lengthSq = 1 ∧ p.u_direction.lengthSq = 1 ∧
  p.normal.dot p.u_direction = 0 ∧ p.v_direction = p.normal.cross p.u_direction

theorem Plane.WF.v_lengthSq {p : Plane} (h : p.WF) : p.v_direction.lengthSq = 1 := by
  rw [h.2.2.2, Vec3.lengthSq_cross, h.1, h.2.1, h.2.2.1]
  norm_num

theorem Plane.WF.n_dot_v {p : Plane} (h : p.WF) : p.normal.dot p.v_direction = 0 := by
  rw [h.2.2.2]
  simp

theorem Plane.WF.v_cross_n {p : Plane} (h : p.WF) :
    p.v_direction.cross p.normal = p.u_direction := by
  rw [h.2.2.2, Vec3.cross_anticomm, Vec3.cross_cross, h.2.2.1,
    show p.normal.dot p.normal = 1 from h.1]
  ext <;> simp

theorem Plane.WF.v_cross_u {p : Plane} (h : p.WF) :
    p.v_direction.cross p.u_direction = -p.normal := by
  rw [h.2.2.2, Vec3.cross_anticomm, Vec3.cross_cross,
    show p.u_direction.dot p.u_direction = 1 from h.2.1,
    Vec3.dot_comm3 p.u_direction p.normal, h.2.2.1]
  ext <;> simp

/-- Orthonormal expansion of an arbitrary vector in a well-formed plane frame. -/
theorem Plane.WF.expansion {p : Plane} (h : p.WF) (w : Vec3) :
    (p.normal.dot w) • p.normal + (p.u_direction.dot w) • p.u_direction
      + (p.v_direction.dot w) • p.v_direction = w := by
  set n := p.normal
  set u := p.u_direction
  set v := p.v_direction
  have hvv : v.dot v = 1 := h.v_lengthSq
  have h2 : v.cross w = (w.dot n) • u - (w.dot u) • n := by
    rw [show v = n.cross u from h.2.2.2]
    rw [Vec3.cross_anticomm (n.cross u) w]
    rw [Vec3.cross_cross w n u]
    ext <;> simp <;> ring
  have h4 : v.cross (v.cross w) = -((w.dot n) • n) - (w.dot u) • u := by
    rw [h2, Vec3.cross_sub_right, Vec3.cross_smul_right, Vec3.cross_smul_right,
      h.v_cross_u, h.v_cross_n]
    ext <;> simp <;> ring
  have h5 : v.cross (v.cross w) = (v.dot w) • v - w := by
    rw [Vec3.cross_cross, hvv, one_smul]
  have h6 : (v.dot w) • v - w = -((w.dot n) • n) - (w.dot u) • u := by rw [← h5, h4]
  have hx := congrArg Vec3.x h6
  have hy := congrArg Vec3.y h6
  have hz := congrArg Vec3.z h6
  simp at hx hy hz
  rw [Vec3.dot_comm3 n w, Vec3.dot_comm3 u w]
  ext <;> simp <;> linarith

theorem Vec2.perp_smul (r : ℝ) (a : Vec2) : (r • a).perp = r • a.perp := by
  ext <;> simp [Vec2.perp] <;> ring

theorem Vec2.normalize_of_lengthSq_one {a : Vec2} (h : a.lengthSq = 1) : a.normalize = a := by
  rw [Vec2.normalize, Vec2.length, h, Real.sqrt_one]
  ext <;> simp

theorem Vec2.lengthSq_smul2 (r : ℝ) (a : Vec2) : (r • a).lengthSq = r ^ 2 * a.lengthSq := by
  simp only [Vec2.lengthSq, Vec2.dot_smul_left2, Vec2.dot_smul_right2]
  ring

/-- Dot products decompose along a well-formed plane frame. -/
theorem Plane.WF.dot_decomp {p : Plane} (h : p.WF) (w z : Vec3) :
    w.dot z = (p.normal.dot w) * (p.normal.dot z)
      + (p.u_direction.dot w) * (p.u_direction.dot z)
      + (p.v_direction.dot w) * (p.v_direction.dot z) := by
  have he := congrArg (fun t => Vec3.dot t z) (h.expansion w)
  simpa using he.symm

/-- The 2D reduction used by the 3D solver is exact: the half plane obtained
from HalfPlane::from_plane_intersection measures, up to the positive factor
sqrt(1 - (n1.n2)^2) bounded by 1, the signed distance of the lifted point to
the second plane; containment transfers in the epsilon-tolerant sense. -/
theorem halfplane_from_planes_exact (p1 p0 : Plane) (hp : HalfPlane)
    (h1 : p1.WF) (hm : p0.normal.lengthSq = 1)
    (hs : HalfPlane.from_plane_intersection p1 p0 = some hp) (q : Vec2) :
    p0.signed_distance (p1.project_3d q)
      = Real.sqrt (1 - (p1.normal.dot p0.normal) ^ 2) * hp.signed_distance q ∧
    (hp.contains q → p0.contains (p1.project_3d q)) ∧
    (0 ≤ p0.signed_distance (p1.project_3d q) → hp.contains q) ∧
    hp.normal.lengthSq = 1 := by
  have heps : (0 : ℝ) < EPSILON := by rw [EPSILON]; norm_num
  have hnn : p1.normal.dot p1.normal = 1 := h1.1
  have hmm : p0.normal.dot p0.normal = 1 := hm
  have hcs : (p1.normal.dot p0.normal) ^ 2 ≤ 1 := by
    have hq := Vec3.cauchy_schwarz p1.normal p0.normal
    rw [show p1.normal.lengthSq = 1 from h1.1, hm] at hq
    nlinarith [sq_nonneg (p1.normal.dot p0.normal)]
  by_cases hden : |1 - (p1.normal.dot p0.normal) ^ 2| < EPSILON
  · rw [HalfPlane.from_plane_intersection] at hs
    simp only [if_pos hden] at hs
    exact absurd hs (by simp)
  · have hden0 : (0 : ℝ) ≤ 1 - (p1.normal.dot p0.normal) ^ 2 := by linarith
    have hdenge : EPSILON ≤ 1 - (p1.normal.dot p0.normal) ^ 2 :=
      not_lt.mp (fun hlt => hden (by rw [abs_of_nonneg hden0]; exact hlt))
    have hdenne : 1 - (p1.normal.dot p0.normal) ^ 2 ≠ 0 := by linarith
    rw [HalfPlane.from_plane_intersection] at hs
    simp only [if_neg hden] at hs
    have hhp := (Option.some.inj hs).symm
    set pt := ((p1.normal.dot p1.origin - p0.normal.dot p0.origin * (p1.normal.dot p0.normal))
          / (1 - (p1.normal.dot p0.normal) ^ 2)) • p1.normal
        + ((p0.normal.dot p0.origin - p1.normal.dot p1.origin * (p1.normal.dot p0.normal))
          / (1 - (p1.normal.dot p0.normal) ^ 2)) • p0.normal with hpt
    clear_value pt
    have hnpt : p1.normal.dot pt = p1.normal.dot p1.origin := by
      rw [hpt]
      simp only [Vec3.dot_add_right3, Vec3.dot_smul_right3, hnn]
      field_simp
      ring
    have hmpt : p0.normal.dot pt = p0.normal.dot p0.origin := by
      rw [hpt]
      simp only [Vec3.dot_add_right3, Vec3.dot_smul_right3, hmm,
        Vec3.dot_comm3 p0.normal p1.normal]
      field_simp
      ring
    have hucr : p1.u_direction.dot (p1.normal.cross p0.normal)
        = -(p0.normal.dot p1.v_direction) := by
      rw [Vec3.triple, Vec3.cross_anticomm p1.u_direction p1.normal, ← h1.2.2.2]
      simp
    have hvcr : p1.v_direction.dot (p1.normal.cross p0.normal)
        = p0.normal.dot p1.u_direction := by
      rw [Vec3.triple, h1.v_cross_n]
    have hdiff : p1.project_2d pt - p1.project_2d (pt + p1.normal.cross p0.normal)
        = ⟨p0.normal.dot p1.v_direction, -(p0.normal.dot p1.u_direction)⟩ := by
      ext
      · simp only [Vec2.sub_x2, Plane.project_2d, Vec3.dot_sub_right3, Vec3.dot_add_right3]
        linarith [hucr]
      · simp only [Vec2.sub_y2, Plane.project_2d, Vec3.dot_sub_right3, Vec3.dot_add_right3]
        linarith [hvcr]
    have hpar := h1.dot_decomp p0.normal p0.normal
    rw [hmm] at hpar
    have hc1 : p0.normal.dot p1.u_direction = p1.u_direction.dot p0.normal :=
      Vec3.dot_comm3 _ _
    have hc2 : p0.normal.dot p1.v_direction = p1.v_direction.dot p0.normal :=
      Vec3.dot_comm3 _ _
    have hc3 : p0.normal.dot p1.normal = p1.normal.dot p0.normal := Vec3.dot_comm3 _ _
    have hlen_diff : (Vec2.mk (p0.normal.dot p1.v_direction)
        (-(p0.normal.dot p1.u_direction))).lengthSq
        = 1 - (p1.normal.dot p0.normal) ^ 2 := by
      simp only [Vec2.lengthSq, Vec2.dot]
      rw [hc1, hc2]
      linear_combination (-1 : ℝ) * hpar
    have hSsq : Real.sqrt (1 - (p1.normal.dot p0.normal) ^ 2)
          * Real.sqrt (1 - (p1.normal.dot p0.normal) ^ 2)
        = 1 - (p1.normal.dot p0.normal) ^ 2 := Real.mul_self_sqrt hden0
    have hSpos : 0 < Real.sqrt (1 - (p1.normal.dot p0.normal) ^ 2) :=
      Real.sqrt_pos.mpr (by linarith)
    have hSne : Real.sqrt (1 - (p1.normal.dot p0.normal) ^ 2) ≠ 0 := ne_of_gt hSpos
    have e1 : (Vec2.mk (p0.normal.dot p1.v_direction)
          (-(p0.normal.dot p1.u_direction))).normalize
        = (1 / Real.sqrt (1 - (p1.normal.dot p0.normal) ^ 2))
          • Vec2.mk (p0.normal.dot p1.v_direction) (-(p0.normal.dot p1.u_direction)) := by
      rw [Vec2.normalize, Vec2.length, hlen_diff]
    have e2 : ((1 / Real.sqrt (1 - (p1.normal.dot p0.normal) ^ 2))
          • Vec2.mk (p0.normal.dot p1.v_direction) (-(p0.normal.dot p1.u_direction))).perp
        = (1 / Real.sqrt (1 - (p1.normal.dot p0.normal) ^ 2))
          • Vec2.mk (p0.normal.dot p1.u_direction) (p0.normal.dot p1.v_direction) := by
      rw [Vec2.perp_smul]
      congr 1
      ext <;> simp [Vec2.perp]
    have e3 : ((1 / Real.sqrt (1 - (p1.normal.dot p0.normal) ^ 2))
          • Vec2.mk (p0.normal.dot p1.u_direction) (p0.normal.dot p1.v_direction)).lengthSq
        = 1 := by
      rw [Vec2.lengthSq_smul2]
      have : (Vec2.mk (p0.normal.dot p1.u_direction)
          (p0.normal.dot p1.v_direction)).lengthSq
          = 1 - (p1.normal.dot p0.normal) ^ 2 := by
        simp only [Vec2.lengthSq, Vec2.dot]
        rw [hc1, hc2]
        linear_combination (-1 : ℝ) * hpar
      rw [this, div_pow, one_pow]
      rw [sq, hSsq]
      field_simp
    have hNorm : hp.normal = (1 / Real.sqrt (1 - (p1.normal.dot p0.normal) ^ 2))
        • Vec2.mk (p0.normal.dot p1.u_direction) (p0.normal.dot p1.v_direction) := by
      rw [hhp]
      show ((p1.project_2d pt - p1.project_2d (pt + p1.normal.cross p0.normal)).normalize.perp).normalize = _
      rw [hdiff, e1, e2, Vec2.normalize_of_lengthSq_one e3]
    have hpoint : hp.point = Vec2.mk (p1.u_direction.dot (pt - p1.origin))
        (p1.v_direction.dot (pt - p1.origin)) := by
      rw [hhp]
      rfl
    have hstar := h1.dot_decomp (pt - p1.origin) p0.normal
    rw [show p1.normal.dot (pt - p1.origin) = 0 by
        rw [Vec3.dot_sub_right3, hnpt]; ring] at hstar
    rw [show (pt - p1.origin).dot p0.normal
        = p0.normal.dot p0.origin - p1.origin.dot p0.normal by
      rw [Vec3.dot_sub_left3, Vec3.dot_comm3 pt p0.normal, hmpt]] at hstar
    rw [← hc1, ← hc2, Vec3.dot_comm3 p1.origin p0.normal] at hstar
    simp only [Vec3.dot_sub_right3] at hstar
    have hkey : (p0.normal.dot p1.u_direction) * (q.x - p1.u_direction.dot (pt - p1.origin))
        + (p0.normal.dot p1.v_direction) * (q.y - p1.v_direction.dot (pt - p1.origin))
        = p0.signed_distance (p1.project_3d q) := by
      rw [Plane.signed_distance, Plane.project_3d]
      simp only [Vec3.dot_sub_right3, Vec3.dot_add_right3, Vec3.dot_smul_right3]
      linear_combination hstar
    have hmain : p0.signed_distance (p1.project_3d q)
        = Real.sqrt (1 - (p1.normal.dot p0.normal) ^ 2) * hp.signed_distance q := by
      rw [HalfPlane.signed_distance, hNorm, hpoint]
      rw [Vec2.dot_smul_left2, ← mul_assoc, mul_one_div_cancel hSne, one_mul]
      rw [← hkey]
      simp only [Vec2.dot, Vec2.sub_x2, Vec2.sub_y2]
    have hL1 : Real.sqrt (1 - (p1.normal.dot p0.normal) ^ 2) ≤ 1 := by
      calc Real.sqrt (1 - (p1.normal.dot p0.normal) ^ 2) ≤ Real.sqrt 1 :=
            Real.sqrt_le_sqrt (by nlinarith [sq_nonneg (p1.normal.dot p0.normal)])
        _ = 1 := Real.sqrt_one
    have hunit : hp.normal.lengthSq = 1 := by
      rw [hNorm]
      exact e3
    clear hs hhp hpt hnpt hmpt hucr hvcr hdiff hpar hc1 hc2 hc3 hlen_diff
    clear e1 e2 e3 hNorm hpoint hstar hkey hSsq
    refine ⟨hmain, ?_, ?_, hunit⟩
    · intro hcq
      have hsq : hp.signed_distance q ≥ -EPSILON := hcq
      rw [Plane.contains, hmain]
      nlinarith [mul_le_of_le_one_left (le_of_lt heps) hL1,
        mul_nonneg (le_of_lt hSpos)
          (by linarith : (0 : ℝ) ≤ hp.signed_distance q + EPSILON)]
    · intro hge
      rw [hmain] at hge
      rw [HalfPlane.contains]
      by_contra hcon
      push_neg at hcon
      nlinarith [mul_pos hSpos (by linarith : (0 : ℝ) < -(hp.signed_distance q))]

/-! ### Claim C2: soundness of a feasible 3D answer -/

/-- A point lifted from a well-formed plane frame lies on the plane. -/
theorem Plane.WF.sd_project {p : Plane} (h : p.WF) (q : Vec2) :
    p.signed_distance (p.project_3d q) = 0 := by
  rw [Plane.signed_distance, Plane.project_3d]
  simp only [Vec3.dot_sub_right3, Vec3.dot_add_right3, Vec3.dot_smul_right3,
    h.2.2.1, h.n_dot_v]
  ring

/-- A point lifted from a well-formed plane frame is contained in the plane. -/
theorem Plane.WF.contains_project {p : Plane} (h : p.WF) (q : Vec2) :
    p.contains (p.project_3d q) := by
  rw [Plane.contains, h.sd_project]
  norm_num [EPSILON]

/-- Every point of the boundary line of a half plane is contained in it. -/
theorem HalfPlane.contains_boundary (hp : HalfPlane) (t : ℝ) :
    hp.contains (hp.point + t • hp.normal.perp) := by
  have hz : hp.signed_distance (hp.point + t • hp.normal.perp) = 0 := by
    rw [HalfPlane.signed_distance]
    simp only [Vec2.dot_sub_right2, Vec2.dot_add_right2, Vec2.dot_smul_right2]
    simp only [Vec2.dot, Vec2.perp]
    ring
  rw [HalfPlane.contains, hz]
  norm_num [EPSILON]

/-- A feasible run of the 2D solver main loop on a single half plane returns a
point contained in that half plane: either the incoming optimum already
satisfies it, or the answer is produced on the clamped boundary segment. -/
theorem go2d_single_contains (shape : Shape2D) (q0 q : Vec2) (hp : HalfPlane)
    (h : go2d shape [] q0 [hp] = .feasible q) : hp.contains q := by
  simp only [go2d] at h
  by_cases hc : hp.contains q0
  · rw [if_pos hc] at h
    injection h with hq
    rw [← hq]
    exact hc
  · rw [if_neg hc] at h
    cases hstep : step2d shape [] hp q0 with
    | none =>
      rw [hstep] at h
      exact OptimizationResult2D.noConfusion h
    | some q2 =>
      rw [hstep] at h
      injection h with hq
      rw [← hq]
      unfold step2d at hstep
      cases hb : shape.get_bounds_on_line hp.point hp.normal.perp with
      | none =>
        simp only [hb, if_neg hc] at hstep
        exact Option.noConfusion hstep
      | some bounds =>
        simp only [hb, shrinkBounds, finalizeInterval] at hstep
        by_cases hinv : (collapseBounds bounds.1 bounds.2).1
            > (collapseBounds bounds.1 bounds.2).2
        · rw [if_pos hinv] at hstep
          exact Option.noConfusion hstep
        · rw [if_neg hinv] at hstep
          have h2 := Option.some.inj hstep
          rw [← h2, LineSegment2D.constrain]
          exact HalfPlane.contains_boundary hp _

/-- A feasible run of incremental_optimization_2d on a single half plane
returns a point contained in that half plane. -/
theorem solver2d_single_contains (shape : Shape2D) (pref q : Vec2) (hp : HalfPlane)
    (h : incremental_optimization_2d pref shape [hp] = .feasible q) :
    hp.contains q := by
  unfold incremental_optimization_2d at h
  exact go2d_single_contains shape _ q hp h

/-- A successful plane step with no previously processed planes returns a point
on the current plane. -/
theorem step3d_sound_nil (shape : Shape3D) (p : Plane) (opt v : Vec3) (hw : p.WF)
    (h : step3d shape [] p opt = some v) : p.contains v := by
  unfold step3d at h
  cases hproj : shape.project_on_plane p with
  | none =>
    rw [hproj] at h
    exact Option.noConfusion h
  | some shape2d =>
    simp only [hproj, List.filterMap_nil, incremental_optimization_2d, go2d] at h
    have hv := Option.some.inj h
    rw [← hv]
    exact hw.contains_project _

/-- A successful plane step whose processed prefix is a single plane that
intersects the current plane cleanly returns a point on the current plane that
also satisfies the previous plane. -/
theorem step3d_sound_pair (shape : Shape3D) (p0 p1 : Plane) (opt v : Vec3)
    (hw1 : p1.WF) (hm : p0.normal.lengthSq = 1) (hp : HalfPlane)
    (hint : HalfPlane.from_plane_intersection p1 p0 = some hp)
    (h : step3d shape [p0] p1 opt = some v) : p0.contains v ∧ p1.contains v := by
  unfold step3d at h
  cases hproj : shape.project_on_plane p1 with
  | none =>
    rw [hproj] at h
    exact Option.noConfusion h
  | some shape2d =>
    simp only [hproj, List.filterMap_cons, List.filterMap_nil, hint] at h
    cases hres : incremental_optimization_2d
        (p1.project_2d (p1.closest_point_and_normal opt).1) shape2d [hp] with
    | infeasible lv =>
      rw [hres] at h
      exact Option.noConfusion h
    | feasible q =>
      rw [hres] at h
      have hv := Option.some.inj h
      have hcq : hp.contains q := solver2d_single_contains shape2d _ q hp hres
      have hc0 : p0.contains (p1.project_3d q) :=
        (halfplane_from_planes_exact p1 p0 hp hw1 hm hint q).2.1 hcq
      rw [← hv]
      exact ⟨hc0, hw1.contains_project _⟩

/-- An unbounded test shape for the 3D solver: constrain is the identity and
every plane projection yields the identity 2D shape with no line bounds. -/
def freeShape3D : Shape3D := ⟨fun v => v, fun _ => some ⟨fun v => v, fun _ _ => none⟩⟩

/-- The plane z >= 0 with its orthonormal frame. -/
def planeZ : Plane := ⟨⟨0, 0, 1⟩, ⟨0, 0, 0⟩, ⟨-1, 0, 0⟩, ⟨0, -1, 0⟩⟩

/-- The plane z <= -1 with its orthonormal frame. -/
def planeDown : Plane := ⟨⟨0, 0, -1⟩, ⟨0, 0, -1⟩, ⟨1, 0, 0⟩, ⟨0, -1, 0⟩⟩

/-- C2 counterexample: with the two well-formed but exactly opposed planes
z >= 0 and z <= -1, the 3D solver reports Feasible at (0,0,-1), yet that
velocity violates the first plane by a full unit.  The reduction drops the
derived half plane because the normals are antiparallel (the denominator
1 - (n1.n2)^2 falls below EPSILON), so the first constraint is silently
forgotten while re-optimizing on the second plane. -/
theorem solver3d_feasible_violates_plane :
    incremental_optimization_3d ⟨0, 0, 0⟩ freeShape3D [planeZ, planeDown]
      = .feasible ⟨0, 0, -1⟩ ∧ ¬ planeZ.contains ⟨0, 0, -1⟩ := by
  constructor
  · norm_num [incremental_optimization_3d, go3d, step3d, freeShape3D,
      incremental_optimization_2d, go2d, List.filterMap_cons, List.filterMap_nil,
      HalfPlane.from_plane_intersection, Plane.contains, Plane.signed_distance,
      Plane.project_2d, Plane.project_3d, Plane.closest_point_and_normal,
      planeZ, planeDown, Vec3.dot, EPSILON, Vec3.zero_def3]
  · norm_num [planeZ, Plane.contains, Plane.signed_distance, Vec3.dot, EPSILON]

/-- C2 (amended): the feasible answer of incremental_optimization_3d satisfies
every constraint of the input list provided the planes carry well-formed
orthonormal frames, the list has at most two planes, and, for a pair, the
half-plane reduction of the pair does not fall into the near-parallel
degenerate branch (HalfPlane::from_plane_intersection returns Some).  The
original unrestricted claim is refuted by solver3d_feasible_violates_plane:
when from_plane_intersection returns None the earlier constraint is dropped. -/
theorem solver3d_sound_small (shape : Shape3D) (pref : Vec3) (ps : List Plane)
    (hwf : ∀ p ∈ ps, p.WF)
    (hpair : ∀ p0 p1, ps = [p0, p1] →
      ∃ hp, HalfPlane.from_plane_intersection p1 p0 = some hp)
    (hlen : ps.length ≤ 2) (v : Vec3)
    (h : incremental_optimization_3d pref shape ps = .feasible v) :
    ∀ p ∈ ps, p.contains v := by
  rcases ps with _ | ⟨p0, _ | ⟨p1, _ | ⟨p2, rest⟩⟩⟩
  · intro p hpin
    exact absurd hpin (List.not_mem_nil p)
  · have hw0 : p0.WF := hwf p0 (by simp)
    intro p hpin
    have hpe : p = p0 := by simpa using hpin
    subst hpe
    unfold incremental_optimization_3d at h
    simp only [go3d] at h
    by_cases hc : p.contains (shape.constrain pref)
    · rw [if_pos hc] at h
      injection h with hv
      rw [← hv]
      exact hc
    · rw [if_neg hc] at h
      cases hstep : step3d shape [] p (shape.constrain pref) with
      | none =>
        rw [hstep] at h
        exact OptimizationResult3D.noConfusion h
      | some w =>
        rw [hstep] at h
        injection h with hv
        rw [← hv]
        exact step3d_sound_nil shape p _ w hw0 hstep
  · have hw0 : p0.WF := hwf p0 (by simp)
    have hw1 : p1.WF := hwf p1 (by simp)
    obtain ⟨hp, hint⟩ := hpair p0 p1 rfl
    unfold incremental_optimization_3d at h
    simp only [go3d, List.nil_append] at h
    by_cases hc0 : p0.contains (shape.constrain pref)
    · rw [if_pos hc0] at h
      by_cases hc1 : p1.contains (shape.constrain pref)
      · rw [if_pos hc1] at h
        injection h with hv
        intro p hpin
        simp only [List.mem_cons, List.not_mem_nil, or_false] at hpin
        rcases hpin with rfl | rfl
        · rw [← hv]; exact hc0
        · rw [← hv]; exact hc1
      · rw [if_neg hc1] at h
        cases hstep : step3d shape [p0] p1 (shape.constrain pref) with
        | none =>
          rw [hstep] at h
          exact OptimizationResult3D.noConfusion h
        | some w =>
          rw [hstep] at h
          injection h with hv
          obtain ⟨hA, hB⟩ := step3d_sound_pair shape p0 p1 _ w hw1 hw0.1 hp hint hstep
          intro p hpin
          simp only [List.mem_cons, List.not_mem_nil, or_false] at hpin
          rcases hpin with rfl | rfl
          · rw [← hv]; exact hA
          · rw [← hv]; exact hB
    · rw [if_neg hc0] at h
      cases hstep0 : step3d shape [] p0 (shape.constrain pref) with
      | none =>
        rw [hstep0] at h
        exact OptimizationResult3D.noConfusion h
      | some w0 =>
        simp only [hstep0] at h
        have hA0 : p0.contains w0 := step3d_sound_nil shape p0 _ w0 hw0 hstep0
        by_cases hc1 : p1.contains w0
        · rw [if_pos hc1] at h
          injection h with hv
          intro p hpin
          simp only [List.mem_cons, List.not_mem_nil, or_false] at hpin
          rcases hpin with rfl | rfl
          · rw [← hv]; exact hA0
          · rw [← hv]; exact hc1
        · rw [if_neg hc1] at h
          cases hstep1 : step3d shape [p0] p1 w0 with
          | none =>
            rw [hstep1] at h
            exact OptimizationResult3D.noConfusion h
          | some w1 =>
            rw [hstep1] at h
            injection h with hv
            obtain ⟨hA, hB⟩ :=
              step3d_sound_pair shape p0 p1 _ w1 hw1 hw0.1 hp hint hstep1
            intro p hpin
            simp only [List.mem_cons, List.not_mem_nil, or_false] at hpin
            rcases hpin with rfl | rfl
            · rw [← hv]; exact hA
            · rw [← hv]; exact hB
  · simp only [List.length_cons] at hlen
    omega

/-- The z >= 0 plane carries a well-formed orthonormal frame. -/
theorem planeZ_wf : planeZ.WF := by
  refine ⟨?_, ?_, ?_, ?_⟩
  · norm_num [planeZ, Vec3.lengthSq, Vec3.dot]
  · norm_num [planeZ, Vec3.lengthSq, Vec3.dot]
  · norm_num [planeZ, Vec3.dot]
  · ext <;> norm_num [planeZ, Vec3.cross]

/-- Witness for C2 (amended): a concrete feasible run on the single plane
z >= 0 whose answer, the preferred velocity itself, satisfies the plane. -/
theorem solver3d_sound_small_witness : planeZ.contains ⟨0, 0, 0⟩ := by
  have heval : incremental_optimization_3d ⟨0, 0, 0⟩ testShape3D [planeZ]
      = .feasible ⟨0, 0, 0⟩ := by
    norm_num [incremental_optimization_3d, go3d, testShape3D, planeZ,
      Plane.contains, Plane.signed_distance, Vec3.dot, EPSILON, Vec3.zero_def3]
  exact solver3d_sound_small testShape3D ⟨0, 0, 0⟩ [planeZ]
    (by
      intro p hpin
      have hpe : p = planeZ := by simpa using hpin
      rw [hpe]
      exact planeZ_wf)
    (by
      intro p0 p1 hps
      exact absurd hps (by simp))
    (by norm_num) ⟨0, 0, 0⟩ heval planeZ (by simp)

/-! ### Claim C10: norm bound of the returned velocity -/

/-- Witness for C1: on the empty constraint list the 3D solve is feasible at
the constrained preferred velocity, and the entry point returns exactly it. -/
theorem optimize_velocity_cascade_witness :
    optimize_velocity_3d ⟨0, 0, 0⟩ 1 [] = ⟨0, 0, 0⟩ := by
  have hfeas : incremental_optimization_3d ⟨0, 0, 0⟩ (Sphere.new 1 0).toShape3D []
      = .feasible ⟨0, 0, 0⟩ := by
    norm_num [incremental_optimization_3d, go3d, Sphere.toShape3D, Sphere.new,
      Sphere.constrain, Vec3.lengthSq, Vec3.dot, Vec3.zero_def3]
  exact (optimize_velocity_cascade ⟨0, 0, 0⟩ 1 []).1 ⟨0, 0, 0⟩ hfeas

/-- An unbounded adversarial shape whose plane sections report the fixed
parameter interval [-10, 0] on every boundary line. -/
def collapseShape3D : Shape3D :=
  ⟨fun v => v, fun _ => some ⟨fun v => v, fun _ _ => some (-10, 0)⟩⟩

/-- A well-formed plane whose chart constraint on planeZ is x <= 0.9e,
marginally containing the chart origin. -/
def pcA : Plane := ⟨⟨4/5, 0, -3/5⟩, ⟨9/100000, 0, 0⟩, ⟨3/5, 0, 4/5⟩, ⟨0, -1, 0⟩⟩

/-- A well-formed plane whose chart constraint on planeZ is x >= -0.9e,
also marginally containing the chart origin. -/
def pcB : Plane := ⟨⟨-4/5, 0, -3/5⟩, ⟨-9/100000, 0, 0⟩, ⟨-3/5, 0, 4/5⟩, ⟨0, 1, 0⟩⟩

/-- A well-formed plane whose chart constraint on planeZ is violated by the
projected preferred velocity, triggering the boundary-line step. -/
def pcD : Plane := ⟨⟨0, 4/5, -3/5⟩, ⟨0, 1/8000, 0⟩, ⟨0, 3/5, 4/5⟩, ⟨1, 0, 0⟩⟩

/-- Evaluation helper: the half plane planeZ derives from pcA. -/
theorem collapse_hA_eval :
    HalfPlane.from_plane_intersection ⟨⟨0, 0, 1⟩, ⟨0, 0, 0⟩, ⟨-1, 0, 0⟩, ⟨0, -1, 0⟩⟩
      ⟨⟨4/5, 0, -3/5⟩, ⟨9/100000, 0, 0⟩, ⟨3/5, 0, 4/5⟩, ⟨0, -1, 0⟩⟩
      = some ⟨⟨-1, 0⟩, ⟨-9/100000, 0⟩⟩ := by
  have h45 : Real.sqrt (16 / 25) = 4 / 5 := sqrt_eval (by norm_num) (by norm_num)
  norm_num [HalfPlane.from_plane_intersection, HalfPlane.new, Plane.project_2d,
    Vec3.cross, Vec2.normalize, Vec2.perp, Vec2.length, Vec2.lengthSq,
    Vec2.dot, Vec3.dot, EPSILON, h45, Real.sqrt_one]
  intro h
  rw [abs_lt] at h
  norm_num at h

/-- Evaluation helper: the half plane planeZ derives from pcB. -/
theorem collapse_hB_eval :
    HalfPlane.from_plane_intersection ⟨⟨0, 0, 1⟩, ⟨0, 0, 0⟩, ⟨-1, 0, 0⟩, ⟨0, -1, 0⟩⟩
      ⟨⟨-4/5, 0, -3/5⟩, ⟨-9/100000, 0, 0⟩, ⟨-3/5, 0, 4/5⟩, ⟨0, 1, 0⟩⟩
      = some ⟨⟨1, 0⟩, ⟨9/100000, 0⟩⟩ := by
  have h45 : Real.sqrt (16 / 25) = 4 / 5 := sqrt_eval (by norm_num) (by norm_num)
  norm_num [HalfPlane.from_plane_intersection, HalfPlane.new, Plane.project_2d,
    Vec3.cross, Vec2.normalize, Vec2.perp, Vec2.length, Vec2.lengthSq,
    Vec2.dot, Vec3.dot, EPSILON, h45, Real.sqrt_one]
  intro h
  rw [abs_lt] at h
  norm_num at h

/-- Evaluation helper: the half plane planeZ derives from pcD. -/
theorem collapse_hD_eval :
    HalfPlane.from_plane_intersection ⟨⟨0, 0, 1⟩, ⟨0, 0, 0⟩, ⟨-1, 0, 0⟩, ⟨0, -1, 0⟩⟩
      ⟨⟨0, 4/5, -3/5⟩, ⟨0, 1/8000, 0⟩, ⟨0, 3/5, 4/5⟩, ⟨1, 0, 0⟩⟩
      = some ⟨⟨0, -1⟩, ⟨0, -1/8000⟩⟩ := by
  have h45 : Real.sqrt (16 / 25) = 4 / 5 := sqrt_eval (by norm_num) (by norm_num)
  norm_num [HalfPlane.from_plane_intersection, HalfPlane.new, Plane.project_2d,
    Vec3.cross, Vec2.normalize, Vec2.perp, Vec2.length, Vec2.lengthSq,
    Vec2.dot, Vec3.dot, EPSILON, h45, Real.sqrt_one]
  intro h
  rw [abs_lt] at h
  norm_num at h

/-- Evaluation helper: the three half planes derived at planeZ's step. -/
theorem collapse_filterMap_eval : ([pcA, pcB, pcD].filterMap
    (fun pj => HalfPlane.from_plane_intersection planeZ pj))
    = [⟨⟨-1, 0⟩, ⟨-9/100000, 0⟩⟩, ⟨⟨1, 0⟩, ⟨9/100000, 0⟩⟩, ⟨⟨0, -1⟩, ⟨0, -1/8000⟩⟩] := by
  simp only [pcA, pcB, pcD, planeZ, List.filterMap_cons, List.filterMap_nil]
  simp only [collapse_hA_eval]
  simp only [collapse_hB_eval]
  simp only [collapse_hD_eval]

/-- Evaluation helper: the 2D solve over the three derived half planes.  The
first two contain the chart origin marginally; the third is violated, its
boundary line is shrunk by the first two into the interval (0.9e, 0), inverted
by less than EPSILON, which collapses to the average 0.45e. -/
theorem collapse_2d_eval :
    incremental_optimization_2d ⟨0, 0⟩ ⟨fun v => v, fun _ _ => some (-10, 0)⟩
      [⟨⟨-1, 0⟩, ⟨-9/100000, 0⟩⟩, ⟨⟨1, 0⟩, ⟨9/100000, 0⟩⟩, ⟨⟨0, -1⟩, ⟨0, -1/8000⟩⟩]
      = .feasible ⟨9/200000, -1/8000⟩ := by
  have habs : |(9 : ℝ) / 100000| = 9 / 100000 := abs_of_nonneg (by norm_num)
  norm_num [incremental_optimization_2d, go2d, step2d, shrinkBounds,
    finalizeInterval, collapseBounds, Ray2D.intersect, LineSegment2D.constrain,
    rclamp, HalfPlane.contains, HalfPlane.signed_distance, Vec2.perp, Vec2.dot,
    EPSILON, min_def, max_def, habs]

/-- Evaluation helper: the boundary-line step at planeZ. -/
theorem collapse_step_eval :
    step3d collapseShape3D [pcA, pcB, pcD] planeZ ⟨0, 0, -1/5000⟩
      = some ⟨-9/200000, 1/8000, 0⟩ := by
  unfold step3d
  simp only [collapseShape3D]
  rw [show planeZ.project_2d ((planeZ.closest_point_and_normal ⟨0, 0, -1/5000⟩).1)
      = ⟨0, 0⟩ from by
    norm_num [planeZ, Plane.project_2d, Plane.closest_point_and_normal, Vec3.dot]]
  rw [collapse_filterMap_eval, collapse_2d_eval]
  norm_num [planeZ, Plane.project_3d]
  ext <;> norm_num

/-- Evaluation helper: the full four-plane run. -/
theorem collapse_trace :
    incremental_optimization_3d ⟨0, 0, -1/5000⟩ collapseShape3D [pcA, pcB, pcD, planeZ]
      = .feasible ⟨-9/200000, 1/8000, 0⟩ := by
  have hc1 : pcA.contains ⟨0, 0, -1/5000⟩ := by
    norm_num [Plane.contains, Plane.signed_distance, pcA, Vec3.dot, EPSILON]
  have hc2 : pcB.contains ⟨0, 0, -1/5000⟩ := by
    norm_num [Plane.contains, Plane.signed_distance, pcB, Vec3.dot, EPSILON]
  have hc3 : pcD.contains ⟨0, 0, -1/5000⟩ := by
    norm_num [Plane.contains, Plane.signed_distance, pcD, Vec3.dot, EPSILON]
  have hnc : ¬ planeZ.contains ⟨0, 0, -1/5000⟩ := by
    norm_num [Plane.contains, Plane.signed_distance, planeZ, Vec3.dot, EPSILON]
  unfold incremental_optimization_3d
  simp only [go3d, List.nil_append, List.cons_append,
    show collapseShape3D.constrain = fun v => v from rfl]
  rw [if_pos hc1, if_pos hc2, if_pos hc3, if_neg hnc, collapse_step_eval]

/-- The three auxiliary planes carry well-formed orthonormal frames. -/
theorem collapse_planes_wf : pcA.WF ∧ pcB.WF ∧ pcD.WF := by
  refine ⟨⟨?_, ?_, ?_, ?_⟩, ⟨?_, ?_, ?_, ?_⟩, ⟨?_, ?_, ?_, ?_⟩⟩
  · norm_num [pcA, Vec3.lengthSq, Vec3.dot]
  · norm_num [pcA, Vec3.lengthSq, Vec3.dot]
  · norm_num [pcA, Vec3.dot]
  · ext <;> norm_num [pcA, Vec3.cross]
  · norm_num [pcB, Vec3.lengthSq, Vec3.dot]
  · norm_num [pcB, Vec3.lengthSq, Vec3.dot]
  · norm_num [pcB, Vec3.dot]
  · ext <;> norm_num [pcB, Vec3.cross]
  · norm_num [pcD, Vec3.lengthSq, Vec3.dot]
  · norm_num [pcD, Vec3.lengthSq, Vec3.dot]
  · norm_num [pcD, Vec3.dot]
  · ext <;> norm_num [pcD, Vec3.cross]

/-- C2 second counterexample: four well-formed planes, all six ordered pairs
with a non-degenerate half-plane reduction, on which the 3D solver reports
Feasible at a velocity violating the first plane by 1.08e-4.  The interval
collapse of the 2D sub-solver moves the answer half an epsilon past pcA's
already marginal bound, so the strict 1e-4 containment fails for lists of
three or more planes even without near-parallel pairs. -/
theorem solver3d_collapse_violates_plane :
    (∀ p ∈ [pcA, pcB, pcD, planeZ], p.WF) ∧
    HalfPlane.from_plane_intersection pcB pcA ≠ none ∧
    HalfPlane.from_plane_intersection pcD pcA ≠ none ∧
    HalfPlane.from_plane_intersection pcD pcB ≠ none ∧
    HalfPlane.from_plane_intersection planeZ pcA ≠ none ∧
    HalfPlane.from_plane_intersection planeZ pcB ≠ none ∧
    HalfPlane.from_plane_intersection planeZ pcD ≠ none ∧
    incremental_optimization_3d ⟨0, 0, -1/5000⟩ collapseShape3D [pcA, pcB, pcD, planeZ]
      = .feasible ⟨-9/200000, 1/8000, 0⟩ ∧
    ¬ pcA.contains ⟨-9/200000, 1/8000, 0⟩ := by
  obtain ⟨hwA, hwB, hwD⟩ := collapse_planes_wf
  refine ⟨?_, ?_, ?_, ?_, ?_, ?_, ?_, collapse_trace, ?_⟩
  · intro p hp
    simp only [List.mem_cons, List.not_mem_nil, or_false] at hp
    rcases hp with rfl | rfl | rfl | rfl
    · exact hwA
    · exact hwB
    · exact hwD
    · exact planeZ_wf
  · simp only [HalfPlane.from_plane_intersection]
    rw [if_neg (by rw [abs_lt]; push_neg; norm_num [pcA, pcB, Vec3.dot, EPSILON])]
    simp
  · simp only [HalfPlane.from_plane_intersection]
    rw [if_neg (by rw [abs_lt]; push_neg; norm_num [pcA, pcD, Vec3.dot, EPSILON])]
    simp
  · simp only [HalfPlane.from_plane_intersection]
    rw [if_neg (by rw [abs_lt]; push_neg; norm_num [pcB, pcD, Vec3.dot, EPSILON])]
    simp
  · simp only [HalfPlane.from_plane_intersection]
    rw [if_neg (by rw [abs_lt]; push_neg; norm_num [pcA, planeZ, Vec3.dot, EPSILON])]
    simp
  · simp only [HalfPlane.from_plane_intersection]
    rw [if_neg (by rw [abs_lt]; push_neg; norm_num [pcB, planeZ, Vec3.dot, EPSILON])]
    simp
  · simp only [HalfPlane.from_plane_intersection]
    rw [if_neg (by rw [abs_lt]; push_neg; norm_num [pcD, planeZ, Vec3.dot, EPSILON])]
    simp
  · norm_num [Plane.contains, Plane.signed_distance, pcA, Vec3.dot, EPSILON]

/-- C2 counterexample (combined): the unrestricted soundness claim for
incremental_optimization_3d fails in two independent ways, each forcing one
restriction of the amended claim.  First, with the exactly opposed planes
z >= 0 and z <= -1 the near-parallel degenerate branch of
HalfPlane::from_plane_intersection silently drops the earlier constraint, so
the Feasible answer violates it by a full unit; this forces the requirement
that the pairwise reductions return Some.  Second, with four well-formed
planes all of whose six ordered pairs reduce to Some, the interval collapse
of the 2D sub-solver still moves the answer 1.08e-4 past the first plane's
strict tolerance, refuting the claim for lists of three or more planes and
forcing the two-plane cap. -/
theorem solver3d_unrestricted_refuted :
    (incremental_optimization_3d ⟨0, 0, 0⟩ freeShape3D [planeZ, planeDown]
        = .feasible ⟨0, 0, -1⟩ ∧ ¬ planeZ.contains ⟨0, 0, -1⟩) ∧
    ((∀ p ∈ [pcA, pcB, pcD, planeZ], p.WF) ∧
      HalfPlane.from_plane_intersection pcB pcA ≠ none ∧
      HalfPlane.from_plane_intersection pcD pcA ≠ none ∧
      HalfPlane.from_plane_intersection pcD pcB ≠ none ∧
      HalfPlane.from_plane_intersection planeZ pcA ≠ none ∧
      HalfPlane.from_plane_intersection planeZ pcB ≠ none ∧
      HalfPlane.from_plane_intersection planeZ pcD ≠ none ∧
      incremental_optimization_3d ⟨0, 0, -1/5000⟩ collapseShape3D [pcA, pcB, pcD, planeZ]
        = .feasible ⟨-9/200000, 1/8000, 0⟩ ∧
      ¬ pcA.contains ⟨-9/200000, 1/8000, 0⟩) :=
  ⟨solver3d_feasible_violates_plane, solver3d_collapse_violates_plane⟩

